import Mathlib

/-!
Verification development for the OpsPilot agent service.

The definitions below are a shallow embedding of the Python sources:
  agent_service/state_machine.py   (class StateMachine)
  agent_service/tools/init file    (tool registry and validate_tool_inputs)
  agent_service/agent.py           (class Agent: run loop and handlers)
  agent_service/main.py            (execute_run and approve_run endpoints)
  agent_service/models.py          (Run, Step, ToolCall rows)

Database rows are modelled as Lean structures held in lists; SQLAlchemy
row updates keyed by primary key become first-match replacement in the
list (primary keys are allocated uniquely from a counter, as in the
database).  The external decision oracle and the tool implementations are
modelled as an explicit script of events consumed by the loop.  Clock
sleeps are modelled by accumulating the slept amount in a ghost counter.
-/

namespace OpsPilot

/-! ## JSON-like values (Python dicts carried as tool inputs) -/

mutual

/-- Structured values appearing in tool inputs and schema defaults or enums.
Python strings, ints, bools, lists and None.  The list payload is a
dedicated mutual type so that decidable equality can be defined. -/
inductive JValue where
  | str (s : String)
  | int (n : Int)
  | boolean (b : Bool)
  | arr (elems : JArr)
  | null

/-- List payload of a JValue array. -/
inductive JArr where
  | nil
  | cons (head : JValue) (tail : JArr)

end

mutual

/-- Decidable equality on values, by simultaneous structural recursion. -/
def JValue.decEq : (a b : JValue) → Decidable (a = b)
  | .str a, .str b =>
      if h : a = b then .isTrue (by rw [h]) else .isFalse (by simp [h])
  | .int a, .int b =>
      if h : a = b then .isTrue (by rw [h]) else .isFalse (by simp [h])
  | .boolean a, .boolean b =>
      if h : a = b then .isTrue (by rw [h]) else .isFalse (by simp [h])
  | .null, .null => .isTrue rfl
  | .arr a, .arr b =>
      match JArr.decEq a b with
      | .isTrue h => .isTrue (by rw [h])
      | .isFalse h => .isFalse (by simp [h])
  | .str _, .int _ => .isFalse (by simp)
  | .str _, .boolean _ => .isFalse (by simp)
  | .str _, .arr _ => .isFalse (by simp)
  | .str _, .null => .isFalse (by simp)
  | .int _, .str _ => .isFalse (by simp)
  | .int _, .boolean _ => .isFalse (by simp)
  | .int _, .arr _ => .isFalse (by simp)
  | .int _, .null => .isFalse (by simp)
  | .boolean _, .str _ => .isFalse (by simp)
  | .boolean _, .int _ => .isFalse (by simp)
  | .boolean _, .arr _ => .isFalse (by simp)
  | .boolean _, .null => .isFalse (by simp)
  | .arr _, .str _ => .isFalse (by simp)
  | .arr _, .int _ => .isFalse (by simp)
  | .arr _, .boolean _ => .isFalse (by simp)
  | .arr _, .null => .isFalse (by simp)
  | .null, .str _ => .isFalse (by simp)
  | .null, .int _ => .isFalse (by simp)
  | .null, .boolean _ => .isFalse (by simp)
  | .null, .arr _ => .isFalse (by simp)

/-- Decidable equality on array payloads. -/
def JArr.decEq : (a b : JArr) → Decidable (a = b)
  | .nil, .nil => .isTrue rfl
  | .cons x xs, .cons y ys =>
      match JValue.decEq x y, JArr.decEq xs ys with
      | .isTrue h1, .isTrue h2 => .isTrue (by rw [h1, h2])
      | .isFalse h1, _ => .isFalse (by simp [h1])
      | _, .isFalse h2 => .isFalse (by simp [h2])
  | .nil, .cons _ _ => .isFalse (by simp)
  | .cons _ _, .nil => .isFalse (by simp)

end

instance : DecidableEq JValue := JValue.decEq

instance : DecidableEq JArr := JArr.decEq

/-- Python isinstance value str. -/
def JValue.isStr : JValue → Bool
  | .str _ => true
  | _ => false

/-- Python isinstance value list. -/
def JValue.isArr : JValue → Bool
  | .arr _ => true
  | _ => false

/-! ## State machine (state_machine.py) -/

/-- Enum State in state_machine.py. -/
inductive State where
  | PLAN
  | EXECUTE_TOOL
  | EVALUATE
  | NEEDS_APPROVAL
  | DONE
  | FAILED
deriving DecidableEq

/-- StateMachine.TRANSITIONS: the fixed transition table. -/
def TRANSITIONS : State → List State
  | .PLAN => [.EXECUTE_TOOL, .DONE, .FAILED]
  | .EXECUTE_TOOL => [.EVALUATE, .FAILED]
  | .EVALUATE => [.PLAN, .NEEDS_APPROVAL, .DONE, .FAILED]
  | .NEEDS_APPROVAL => [.EXECUTE_TOOL, .FAILED]
  | .DONE => []
  | .FAILED => []

/-- The StateMachine object: current state plus append-only history. -/
structure StateMachine where
  current_state : State
  transition_history : List State
deriving DecidableEq

/-- StateMachine constructor with initial state (default PLAN). -/
def StateMachine.init (initial_state : State := .PLAN) : StateMachine :=
  { current_state := initial_state, transition_history := [initial_state] }

/-- StateMachine.can_transition. -/
def StateMachine.can_transition (from_state to_state : State) : Bool :=
  to_state ∈ TRANSITIONS from_state

/-- The data carried by the ValueError raised on an invalid transition:
the message names the current state, the attempted target, and the list
of valid transitions from the current state. -/
structure InvalidTransition where
  current : State
  target : State
  valid : List State
deriving DecidableEq

/-- StateMachine.transition: succeeds and appends to history when the
target is legal, otherwise raises carrying current, target and legal set.
The machine value is returned unchanged information-wise on failure since
the exception is raised before any mutation. -/
def StateMachine.transition (sm : StateMachine) (to_state : State) :
    Except InvalidTransition StateMachine :=
  if StateMachine.can_transition sm.current_state to_state then
    .ok { current_state := to_state,
          transition_history := sm.transition_history ++ [to_state] }
  else
    .error { current := sm.current_state, target := to_state,
             valid := TRANSITIONS sm.current_state }

/-- StateMachine.is_terminal on an explicit state. -/
def State.is_terminal (s : State) : Bool :=
  s = State.DONE ∨ s = State.FAILED

/-! ## Tool registry (tools package init file) -/

/-- One parameter entry of a tool input schema. -/
structure ParamConfig where
  type : Option String
  enum : Option (List String)
  default : Option JValue
deriving DecidableEq

/-- A tool input schema: ordered properties and required parameter names. -/
structure ToolSchema where
  properties : List (String × ParamConfig)
  required : List String
deriving DecidableEq

/-- One registry entry of the TOOLS catalog (the callable itself is
external I/O and is represented by the dispatch events of the model). -/
structure ToolEntry where
  name : String
  description : String
  schema : ToolSchema
  requires_approval : Bool
  timeout : Nat
  category : String
deriving DecidableEq

/-- The static TOOLS registry, transcribed from the tools package. -/
def TOOLS : List ToolEntry :=
  [ { name := "search_logs",
      description := "Search through application logs for specific patterns or errors",
      schema :=
        { properties :=
            [ ("query", { type := some "string", enum := none, default := none }),
              ("pattern", { type := some "string", enum := none, default := none }),
              ("time_range", { type := some "string", enum := none,
                               default := some (.str "1h") }) ],
          required := [] },
      requires_approval := false, timeout := 30, category := "observability" },
    { name := "query_metrics",
      description := "Query time-series metrics data",
      schema :=
        { properties :=
            [ ("metric", { type := some "string",
                           enum := some ["error_rate", "response_time", "cpu_usage", "memory_usage"],
                           default := none }),
              ("metric_type", { type := some "string",
                                enum := some ["error_rate", "response_time", "cpu_usage", "memory_usage"],
                                default := none }),
              ("metric_name", { type := some "string",
                                enum := some ["error_rate", "response_time", "cpu_usage", "memory_usage"],
                                default := none }),
              ("start", { type := some "string", enum := none, default := some (.str "1h") }),
              ("end", { type := some "string", enum := none, default := some (.str "now") }),
              ("interval", { type := some "string", enum := none, default := some (.str "5m") }) ],
          required := [] },
      requires_approval := false, timeout := 30, category := "observability" },
    { name := "create_ticket",
      description := "Create a new incident ticket (HIGH-RISK: requires approval)",
      schema :=
        { properties :=
            [ ("title", { type := some "string", enum := none, default := none }),
              ("description", { type := some "string", enum := none, default := none }),
              ("severity", { type := some "string",
                             enum := some ["critical", "high", "medium", "low"],
                             default := none }),
              ("priority", { type := some "string",
                             enum := some ["critical", "high", "medium", "low"],
                             default := none }),
              ("tags", { type := some "array", enum := none, default := none }) ],
          required := ["title", "description"] },
      requires_approval := true, timeout := 10, category := "action" },
    { name := "generate_report",
      description := "Generate a markdown investigation report from findings",
      schema :=
        { properties :=
            [ ("findings", { type := some "array", enum := none, default := none }) ],
          required := ["findings"] },
      requires_approval := false, timeout := 20, category := "reporting" } ]

/-- Registry lookup by tool name. -/
def findTool (tool_name : String) : Option ToolEntry :=
  TOOLS.find? (fun t => t.name = tool_name)

/-- get_tool_schema: fails with ValueError when the tool is unknown. -/
def get_tool_schema (tool_name : String) : Except String ToolSchema :=
  match findTool tool_name with
  | none => .error ("Tool " ++ tool_name ++ " not found")
  | some t => .ok t.schema

/-- The requires_approval registry query: false for unknown names. -/
def requires_approval (tool_name : String) : Bool :=
  match findTool tool_name with
  | none => false
  | some t => t.requires_approval

/-- Raw inputs are a Python dict: an association list looked up by key. -/
abbrev Inputs := List (String × JValue)

/-- Dict key lookup. -/
def Inputs.lookup (inputs : Inputs) (k : String) : Option JValue :=
  (inputs.find? (fun p => p.1 = k)).map Prod.snd

/-- The per-value checks of validate_tool_inputs applied to one parameter
value (taken from the raw inputs or from the declared default): the type
check for declared string and array types, then the enum membership
check.  Returns the value unchanged when all checks pass.  Enum lists in
the registry hold only strings, so a non-string value never passes an
enum check, as in Python. -/
def checkParamValue (param_name : String) (cfg : ParamConfig) (value : JValue) :
    Except String JValue :=
  if cfg.type = some "string" ∧ ¬ value.isStr then
    .error ("Parameter " ++ param_name ++ " must be a string")
  else if cfg.type = some "array" ∧ ¬ value.isArr then
    .error ("Parameter " ++ param_name ++ " must be an array")
  else
    match cfg.enum with
    | some es =>
        match value with
        | .str s => if s ∈ es then .ok value else
            .error ("Parameter " ++ param_name ++ " must be one of the enum values")
        | _ => .error ("Parameter " ++ param_name ++ " must be one of the enum values")
    | none => .ok value

/-- The leading loop of validate_tool_inputs: every required parameter
must be present in the raw inputs; the first absent one raises. -/
def checkRequired (required : List String) (inputs : Inputs) : Except String Unit :=
  match required with
  | [] => .ok ()
  | r :: rest =>
      match inputs.lookup r with
      | none => .error ("Missing required parameter: " ++ r)
      | some _ => checkRequired rest inputs

/-- The value validate_tool_inputs considers for a schema property: the
raw value when present, else the declared default, else nothing. -/
def consideredValue (inputs : Inputs) (p : String × ParamConfig) : Option JValue :=
  match inputs.lookup p.1 with
  | some v => some v
  | none => p.2.default

/-- A value conforms to a declared schema type (an observation used by
the theorems, not by the code, which enforces exactly the string and
array types that occur in the registry). -/
def typeMatches (t : Option String) (v : JValue) : Bool :=
  if t = some "string" then v.isStr
  else if t = some "array" then v.isArr
  else true

/-- A value conforms to a declared enum constraint (observation). -/
def enumMatches (e : Option (List String)) (v : JValue) : Bool :=
  match e with
  | none => true
  | some es =>
      match v with
      | .str s => s ∈ es
      | _ => false

/-- A schema property whose considered value fails its checks
(observation). -/
def violatesProp (inputs : Inputs) (p : String × ParamConfig) : Bool :=
  match consideredValue inputs p with
  | none => false
  | some v =>
      match checkParamValue p.1 p.2 v with
      | .ok _ => false
      | .error _ => true

/-- The main loop of validate_tool_inputs over the schema properties in
declaration order: a present raw value is checked and kept; an absent one
with a default gets the default (also checked); an absent one without a
default is skipped.  Keys outside the schema are never consulted, which
silently drops unrecognized parameters. -/
def validateProps (props : List (String × ParamConfig)) (inputs : Inputs) :
    Except String Inputs :=
  match props with
  | [] => .ok []
  | (param_name, cfg) :: rest =>
      match consideredValue inputs (param_name, cfg) with
      | none => validateProps rest inputs
      | some v =>
          match checkParamValue param_name cfg v with
          | .error e => .error e
          | .ok v' =>
              match validateProps rest inputs with
              | .error e => .error e
              | .ok validated => .ok ((param_name, v') :: validated)

/-- validate_tool_inputs from the tools package. -/
def validate_tool_inputs (tool_name : String) (inputs : Inputs) :
    Except String Inputs :=
  match get_tool_schema tool_name with
  | .error e => .error e
  | .ok schema =>
      match checkRequired schema.required inputs with
      | .error e => .error e
      | .ok _ => validateProps schema.properties inputs

/-! ## Persisted rows (models.py)

The model covers a single Run (concurrent runs are independent per the
design, sharing nothing but per-run retry keys), so its run id is the
constant 1.  Primary keys and timestamps are drawn from one monotone
allocator, so created_at ordering coincides with id ordering, as in the
database.  JSON text columns holding structured data (ToolCall.inputs)
are kept structured; round-tripping through dumps and loads is lossless. -/

/-- Enum RunStatus in models.py. -/
inductive RunStatus where
  | RUNNING
  | DONE
  | FAILED
  | NEEDS_APPROVAL
deriving DecidableEq

/-- A Step row.  The fromPlan field is ghost instrumentation recording
whether the row was created by the PLAN handler (as opposed to a
synthetic terminal step); it does not influence any behaviour. -/
structure StepRec where
  id : Nat
  run_id : Nat
  state : State
  step_number : Nat
  reasoning : Option String
  created_at : Nat
  fromPlan : Bool
deriving DecidableEq

/-- Enum ToolCallStatus in models.py. -/
inductive ToolCallStatus where
  | PENDING
  | RUNNING
  | SUCCESS
  | FAILED
  | NEEDS_APPROVAL
deriving DecidableEq

/-- A ToolCall row.  outputs holds the serialized JSON text written by
json.dumps. -/
structure ToolCallRec where
  id : Nat
  step_id : Nat
  tool_name : String
  inputs : Inputs
  outputs : Option String
  status : ToolCallStatus
  error_message : Option String
  created_at : Nat
  executed_at : Option Nat
deriving DecidableEq

/-- Lookup in an integer keyed store (the redis retry counters). -/
def kvLookup (l : List (Nat × Nat)) (k : Nat) : Option Nat :=
  (l.find? (fun p => p.1 = k)).map Prod.snd

/-- Write through (redis setex: overwrite or insert; the TTL plays no
role in a single sequential run and is omitted). -/
def kvSet (l : List (Nat × Nat)) (k v : Nat) : List (Nat × Nat) :=
  (l.filter (fun p => ¬ p.1 = k)) ++ [(k, v)]

/-- Key deletion (redis delete). -/
def kvDelete (l : List (Nat × Nat)) (k : Nat) : List (Nat × Nat) :=
  l.filter (fun p => ¬ p.1 = k)

/-- Ghost helper: increment a per key counter. -/
def kvBump (l : List (Nat × Nat)) (k : Nat) : List (Nat × Nat) :=
  kvSet l k ((kvLookup l k).getD 0 + 1)

/-- The durable state shared by agent instances and the API layer: the
Run row, its Steps and ToolCalls, and the redis retry counters.  The
visitedNA flag is ghost history: it records whether Run.status was ever
assigned NEEDS_APPROVAL.  dispatchCounts is ghost history: how many
times each ToolCall has been dispatched to its tool function by the
EXECUTE_TOOL handler. -/
structure Db where
  runStatus : RunStatus
  goal : String
  steps : List StepRec
  tool_calls : List ToolCallRec
  retry : List (Nat × Nat)
  nextId : Nat
  visitedNA : Bool
  dispatchCounts : List (Nat × Nat)
deriving DecidableEq

/-- Allocate a fresh primary key / timestamp. -/
def Db.alloc (db : Db) : Nat × Db :=
  (db.nextId, { db with nextId := db.nextId + 1 })

/-- Row update keyed by primary key (keys are allocated uniquely). -/
def updateStepRow (steps : List StepRec) (i : Nat) (r : StepRec) : List StepRec :=
  steps.map (fun s => if s.id = i then r else s)

/-- Row update keyed by primary key (keys are allocated uniquely). -/
def updateToolCallRow (tcs : List ToolCallRec) (i : Nat) (r : ToolCallRec) :
    List ToolCallRec :=
  tcs.map (fun t => if t.id = i then r else t)

/-- Query order_by(created_at desc).first() over an already filtered
list: the row with the greatest created_at (later rows win ties, which
never arise since timestamps are unique). -/
def latestByCreated (l : List ToolCallRec) : Option ToolCallRec :=
  l.foldl
    (fun acc x =>
      match acc with
      | none => some x
      | some b => if b.created_at ≤ x.created_at then some x else some b)
    none

/-- Query order_by(step_number desc, created_at desc).first(). -/
def latestStep (steps : List StepRec) : Option StepRec :=
  steps.foldl
    (fun acc x =>
      match acc with
      | none => some x
      | some b =>
          if b.step_number < x.step_number ∨
             (b.step_number = x.step_number ∧ b.created_at ≤ x.created_at) then
            some x
          else some b)
    none

/-! ## The Agent (agent.py)

The decision oracle and the tool implementations are external, so their
responses enter the model as a script of events the loop consumes.  Each
handler mirrors its Python method statement by statement; a Python
exception escaping a handler is an explicit exc result, which run_agent
routes through the idempotent FAILED transition helper and re-raises,
exactly as the try/except in run_agent does. -/

/-- The in-memory agent: machine position, step counter, safety ceiling
and a handle on the store.  sleptTotal is ghost instrumentation
accumulating backoff sleeps; naHandlerCalls is ghost instrumentation
counting invocations of the NEEDS_APPROVAL handler. -/
structure AgentState where
  sm : State
  current_step_number : Nat
  max_steps : Nat
  db : Db
  sleptTotal : Nat
  naHandlerCalls : Nat
deriving DecidableEq

/-- A state machine transition attempt as the handlers perform it:
either the new current state or the ValueError payload. -/
def State.transitionTo (s target : State) : Except InvalidTransition State :=
  if StateMachine.can_transition s target then .ok target
  else .error { current := s, target := target, valid := TRANSITIONS s }

/-- One oracle planning response, already parsed as the handler would
parse it.  apiError covers transport errors and empty responses; invalid
covers unparsable JSON and a missing action field. -/
inductive PlanEvent where
  | apiError (msg : String)
  | invalid (msg : String)
  | done (reasoning : String)
  | call_tool (tool_name : String) (inputs : Inputs) (reasoning : String)
  | unknownAction (action : String) (reasoning : String)

/-- One oracle evaluation response.  The decision is carried verbatim as
text; reasoning is absent when the oracle omitted the key. -/
inductive EvalEvent where
  | apiError (msg : String)
  | invalid (msg : String)
  | result (decision : String) (reasoning : Option String)

/-- Outcome of one dispatch of a tool function on the bounded worker. -/
inductive DispatchOutcome where
  | success (outputs : String)
  | timeout
  | failure (msg : String)

/-- The script of external events a run consumes. -/
inductive Event where
  | plan (e : PlanEvent)
  | eval (e : EvalEvent)
  | dispatch (d : DispatchOutcome)

/-- Result of one handler invocation: normal return, or a Python
exception escaping with a message. -/
inductive HRes where
  | ok (a : AgentState)
  | exc (a : AgentState) (msg : String)

/-- Result of executing one loop body step against the script. -/
inductive StepOutcome where
  | ok (a : AgentState) (script : List Event)
  | stuck (a : AgentState) (script : List Event)
  | exc (a : AgentState) (script : List Event) (msg : String)

/-- The query predicate for the current Step of the run. -/
def isCurrentStep (n : Nat) (s : StepRec) : Bool :=
  s.run_id = 1 ∧ s.step_number = n

/-- The query predicate for the PENDING ToolCall of a Step. -/
def isPendingOf (sid : Nat) (t : ToolCallRec) : Bool :=
  t.step_id = sid ∧ t.status = ToolCallStatus.PENDING

/-- Agent._transition_to_failed: idempotent on terminal states (logs and
returns), otherwise moves the machine to FAILED (legal from every
non-terminal state, so the transition call cannot raise here), appends a
synthetic FAILED Step numbered current_step_number + 1 carrying the
reason, and persists Run.status = FAILED. -/
def transition_to_failed (a : AgentState) (reason : String) : AgentState :=
  if a.sm = State.DONE ∨ a.sm = State.FAILED then a
  else
    let (sid, db) := a.db.alloc
    let step : StepRec :=
      { id := sid, run_id := 1, state := State.FAILED,
        step_number := a.current_step_number + 1,
        reasoning := some reason, created_at := sid, fromPlan := false }
    { a with
        sm := State.FAILED,
        db := { db with steps := db.steps ++ [step], runStatus := RunStatus.FAILED } }

/-- Agent._handle_plan_state, with the oracle response passed in.  On
the failure responses it routes to the FAILED helper before creating any
Step.  Otherwise it creates the PLAN Step numbered with the current step
counter, then: done marks the machine and the created row DONE; call_tool
validates inputs against the registry (missing name or validation errors
route to FAILED, leaving the PLAN row behind), records a PENDING ToolCall
holding the validated inputs, and moves to EXECUTE_TOOL; an unknown
action routes to FAILED. -/
def handle_plan_state (a : AgentState) (e : PlanEvent) : HRes :=
  match e with
  | .apiError msg => .ok (transition_to_failed a ("LLM API error: " ++ msg))
  | .invalid msg => .ok (transition_to_failed a msg)
  | .done reasoning =>
      let (sid, db) := a.db.alloc
      let step : StepRec :=
        { id := sid, run_id := 1, state := State.PLAN,
          step_number := a.current_step_number,
          reasoning := some reasoning, created_at := sid, fromPlan := true }
      let db := { db with steps := db.steps ++ [step] }
      match State.transitionTo a.sm State.DONE with
      | .error _ => .exc { a with db := db } "Invalid transition"
      | .ok s' =>
          let steps' := updateStepRow db.steps sid { step with state := State.DONE }
          .ok { a with
                sm := s',
                db := { db with steps := steps' } }
  | .call_tool tool_name inputs reasoning =>
      let (sid, db) := a.db.alloc
      let step : StepRec :=
        { id := sid, run_id := 1, state := State.PLAN,
          step_number := a.current_step_number,
          reasoning := some reasoning, created_at := sid, fromPlan := true }
      let db := { db with steps := db.steps ++ [step] }
      let a := { a with db := db }
      if tool_name = "" then
        .ok (transition_to_failed a "Invalid plan: missing tool_name")
      else
        match validate_tool_inputs tool_name inputs with
        | .error e => .ok (transition_to_failed a ("Invalid tool inputs: " ++ e))
        | .ok validated =>
            let (tcid, db) := a.db.alloc
            let tc : ToolCallRec :=
              { id := tcid, step_id := sid, tool_name := tool_name,
                inputs := validated, outputs := none,
                status := ToolCallStatus.PENDING, error_message := none,
                created_at := tcid, executed_at := none }
            let a := { a with db := { db with tool_calls := db.tool_calls ++ [tc] } }
            match State.transitionTo a.sm State.EXECUTE_TOOL with
            | .error _ => .exc a "Invalid transition"
            | .ok s' => .ok { a with sm := s' }
  | .unknownAction action reasoning =>
      let (sid, db) := a.db.alloc
      let step : StepRec :=
        { id := sid, run_id := 1, state := State.PLAN,
          step_number := a.current_step_number,
          reasoning := some reasoning, created_at := sid, fromPlan := true }
      let a := { a with db := { db with steps := db.steps ++ [step] } }
      .ok (transition_to_failed a ("Unknown action: " ++ action))

/-- Agent._handle_execute_state.  Finds the current Step and its PENDING
ToolCall, marks it RUNNING, reads the retry counter, sleeps the
exponential backoff when attempts were recorded, then applies the
pre-dispatch approval gate: an approval requiring tool sets Run.status
to NEEDS_APPROVAL, resets the call to PENDING, marks the Step, and then
attempts the machine transition EXECUTE_TOOL to NEEDS_APPROVAL, which is
not in the table and raises.  Otherwise it dispatches: success persists
outputs, marks SUCCESS with executed_at, clears the retry counter and
(after the defensive approval re-check) moves to EVALUATE; timeout or
error below 3 recorded attempts increments the counter and resets the
call to PENDING for a later iteration; otherwise the call is marked
FAILED and the run routed to FAILED. -/
def handle_execute_state (a : AgentState) (script : List Event) : StepOutcome :=
  match a.db.steps.find? (isCurrentStep a.current_step_number) with
  | none => .ok (transition_to_failed a "No current step found") script
  | some current_step =>
      match a.db.tool_calls.find? (isPendingOf current_step.id) with
      | none => .ok (transition_to_failed a "No pending tool call found") script
      | some tc0 =>
          let a := { a with db := { a.db with
            tool_calls := updateToolCallRow a.db.tool_calls tc0.id
              { tc0 with status := ToolCallStatus.RUNNING } } }
          let attempts := (kvLookup a.db.retry tc0.id).getD 0
          let a :=
            { a with sleptTotal := a.sleptTotal +
                (if attempts > 0 then 2 ^ (attempts - 1) else 0) }
          if requires_approval tc0.tool_name then
            let db := { a.db with
              runStatus := RunStatus.NEEDS_APPROVAL, visitedNA := true }
            let db := { db with
              tool_calls := updateToolCallRow db.tool_calls tc0.id
                { tc0 with status := ToolCallStatus.PENDING } }
            let db := { db with
              steps := updateStepRow db.steps current_step.id
                { current_step with state := State.NEEDS_APPROVAL } }
            let a := { a with db := db }
            match State.transitionTo a.sm State.NEEDS_APPROVAL with
            | .error _ => .exc a script "Invalid transition"
            | .ok s' => .ok { a with sm := s' } script
          else
            match script with
            | Event.dispatch d :: rest =>
                let a := { a with db := { a.db with
                  dispatchCounts := kvBump a.db.dispatchCounts tc0.id } }
                match d with
                | .success out =>
                    let (t, db) := a.db.alloc
                    let db := { db with
                      tool_calls := updateToolCallRow db.tool_calls tc0.id
                        { tc0 with
                          outputs := some out,
                          status := ToolCallStatus.SUCCESS, executed_at := some t },
                      retry := kvDelete db.retry tc0.id }
                    let a := { a with db := db }
                    if requires_approval tc0.tool_name then
                      match State.transitionTo a.sm State.NEEDS_APPROVAL with
                      | .error _ => .exc a rest "Invalid transition"
                      | .ok s' =>
                          let db := { a.db with
                            steps := updateStepRow a.db.steps current_step.id
                              { current_step with state := State.NEEDS_APPROVAL },
                            runStatus := RunStatus.NEEDS_APPROVAL, visitedNA := true }
                          .ok { a with sm := s', db := db } rest
                    else
                      match State.transitionTo a.sm State.EVALUATE with
                      | .error _ => .exc a rest "Invalid transition"
                      | .ok s' =>
                          let db := { a.db with
                            steps := updateStepRow a.db.steps current_step.id
                              { current_step with state := State.EVALUATE } }
                          .ok { a with sm := s', db := db } rest
                | .timeout =>
                    if attempts < 3 then
                      let db := { a.db with
                        retry := kvSet a.db.retry tc0.id (attempts + 1),
                        tool_calls := updateToolCallRow a.db.tool_calls tc0.id
                          { tc0 with status := ToolCallStatus.PENDING } }
                      .ok { a with db := db } rest
                    else
                      let db := { a.db with
                        tool_calls := updateToolCallRow a.db.tool_calls tc0.id
                          { tc0 with
                            status := ToolCallStatus.FAILED,
                            error_message := some "Timeout after 30 seconds (3 retries)" } }
                      .ok (transition_to_failed { a with db := db }
                            ("Tool " ++ tc0.tool_name ++ " timed out after retries")) rest
                | .failure msg =>
                    if attempts < 3 then
                      let db := { a.db with
                        retry := kvSet a.db.retry tc0.id (attempts + 1),
                        tool_calls := updateToolCallRow a.db.tool_calls tc0.id
                          { tc0 with status := ToolCallStatus.PENDING } }
                      .ok { a with db := db } rest
                    else
                      let db := { a.db with
                        tool_calls := updateToolCallRow a.db.tool_calls tc0.id
                          { tc0 with
                            status := ToolCallStatus.FAILED,
                            error_message := some msg,
                            outputs := some ("error: " ++ msg) } }
                      .ok (transition_to_failed { a with db := db }
                            ("Tool error: " ++ msg)) rest
            | _ => .stuck a script

/-- Agent._handle_evaluate_state, with the oracle response passed in.
Failure responses route to FAILED.  Otherwise the evaluation reasoning
is appended to the current Step (plan steps always carry a string) and
the decision maps: continue to PLAN, done to DONE, needs_approval to
NEEDS_APPROVAL (all legal from EVALUATE), failed to the FAILED helper
with the given reasoning, and anything else to the FAILED helper citing
the unknown decision. -/
def handle_evaluate_state (a : AgentState) (e : EvalEvent) : HRes :=
  match e with
  | .apiError msg => .ok (transition_to_failed a ("LLM API error: " ++ msg))
  | .invalid msg => .ok (transition_to_failed a msg)
  | .result decision reasoning =>
      let a :=
        match a.db.steps.find? (isCurrentStep a.current_step_number) with
        | none => a
        | some st =>
            { a with db := { a.db with
                steps := updateStepRow a.db.steps st.id
                  { st with
                    reasoning := some ((st.reasoning.getD "") ++
                      "\n[Evaluation] " ++ (reasoning.getD "")),
                    state := State.EVALUATE } } }
      if decision = "continue" then
        match State.transitionTo a.sm State.PLAN with
        | .error _ => .exc a "Invalid transition"
        | .ok s' => .ok { a with sm := s' }
      else if decision = "done" then
        match State.transitionTo a.sm State.DONE with
        | .error _ => .exc a "Invalid transition"
        | .ok s' => .ok { a with sm := s' }
      else if decision = "needs_approval" then
        match State.transitionTo a.sm State.NEEDS_APPROVAL with
        | .error _ => .exc a "Invalid transition"
        | .ok s' => .ok { a with sm := s' }
      else if decision = "failed" then
        .ok (transition_to_failed a (reasoning.getD "Agent decided to fail"))
      else
        .ok (transition_to_failed a ("Unknown decision: " ++ decision))

/-- Agent._handle_needs_approval_state.  Finds the current Step (none
routes to FAILED), then the latest ToolCall of the Step: none attempts
the machine transition to PLAN (not legal from NEEDS_APPROVAL, so it
would raise); otherwise persists Run.status = NEEDS_APPROVAL and
returns.  The ghost counter records the invocation. -/
def handle_needs_approval_state (a : AgentState) : HRes :=
  let a := { a with naHandlerCalls := a.naHandlerCalls + 1 }
  match a.db.steps.find? (isCurrentStep a.current_step_number) with
  | none => .ok (transition_to_failed a "No current step for approval")
  | some st =>
      match latestByCreated (a.db.tool_calls.filter (fun t => t.step_id = st.id)) with
      | none =>
          match State.transitionTo a.sm State.PLAN with
          | .error _ => .exc a "Invalid transition"
          | .ok s' => .ok { a with sm := s' }
      | some _ =>
          .ok { a with db := { a.db with
            runStatus := RunStatus.NEEDS_APPROVAL, visitedNA := true } }

/-- Agent._execute_current_state: dispatch on the machine position.  The
PLAN and EVALUATE handlers consume one oracle event from the script; a
script that cannot supply it leaves the model stuck (an artifact of the
scripted environment, not of the code). -/
def execute_current_state (a : AgentState) (script : List Event) : StepOutcome :=
  match a.sm with
  | .PLAN =>
      match script with
      | Event.plan e :: rest =>
          match handle_plan_state a e with
          | .ok a' => .ok a' rest
          | .exc a' msg => .exc a' rest msg
      | _ => .stuck a script
  | .EXECUTE_TOOL => handle_execute_state a script
  | .EVALUATE =>
      match script with
      | Event.eval e :: rest =>
          match handle_evaluate_state a e with
          | .ok a' => .ok a' rest
          | .exc a' msg => .exc a' rest msg
      | _ => .stuck a script
  | .NEEDS_APPROVAL =>
      match handle_needs_approval_state a with
      | .ok a' => .ok a' script
      | .exc a' msg => .exc a' script msg
  | .DONE => .ok a script
  | .FAILED => .ok a script

/-- The while loop of Agent.run_agent: stop at terminal states, stop
when already NEEDS_APPROVAL (before any handler dispatch), force FAILED
past the safety ceiling, increment the step counter only when entering
PLAN, then run the current handler and commit.  Fuel bounds the
recursion; running out leaves the model stuck. -/
def run_loop : Nat → AgentState → List Event → StepOutcome
  | 0, a, script => .stuck a script
  | fuel + 1, a, script =>
      if a.sm.is_terminal then .ok a script
      else if a.sm = State.NEEDS_APPROVAL then .ok a script
      else if a.max_steps ≤ a.current_step_number then
        .ok (transition_to_failed a "Max steps exceeded") script
      else
        let a :=
          if a.sm = State.PLAN then
            { a with current_step_number := a.current_step_number + 1 }
          else a
        match execute_current_state a script with
        | .ok a' script' => run_loop fuel a' script'
        | r => r

/-- What Agent.run_agent leaves behind: a normal return, a stuck model
(artifact), or a Python exception propagating to the caller after the
except block ran. -/
inductive RunResult where
  | finished (a : AgentState)
  | stuck (a : AgentState)
  | raised (a : AgentState) (msg : String)

/-- Agent.run_agent: run the loop; on normal exit persist Run.status
from a terminal machine state; on an escaping exception route once
through the idempotent FAILED helper and re-raise. -/
def run_agent (fuel : Nat) (a : AgentState) (script : List Event) : RunResult :=
  match run_loop fuel a script with
  | .ok a _ =>
      if a.sm = State.DONE then
        .finished { a with db := { a.db with runStatus := RunStatus.DONE } }
      else if a.sm = State.FAILED then
        .finished { a with db := { a.db with runStatus := RunStatus.FAILED } }
      else .finished a
  | .stuck a _ => .stuck a
  | .exc a _ msg =>
      .raised (transition_to_failed a ("Unexpected error: " ++ msg)) msg

/-! ## The API layer (main.py) -/

/-- Agent construction for a run: rehydrate the step counter and the
machine position from the latest persisted Step; a fresh run starts at
PLAN with counter 0.  max_steps is 10. -/
def initAgent (db : Db) : AgentState :=
  match latestStep db.steps with
  | none =>
      { sm := State.PLAN, current_step_number := 0, max_steps := 10,
        db := db, sleptTotal := 0, naHandlerCalls := 0 }
  | some st =>
      { sm := st.state, current_step_number := st.step_number, max_steps := 10,
        db := db, sleptTotal := 0, naHandlerCalls := 0 }

/-- An HTTP level outcome of an endpoint. -/
inductive ApiOutcome where
  | ok (msg : String)
  | httpError (code : Nat) (msg : String)
deriving DecidableEq

/-- POST runs execute: reject terminal runs, set the run RUNNING, build
the agent and run it; an escaping exception makes the endpoint mark the
run FAILED and answer 500. -/
def execute_run (fuel : Nat) (db : Db) (script : List Event) : Db × ApiOutcome :=
  if db.runStatus = RunStatus.DONE then (db, .httpError 400 "Run already completed")
  else if db.runStatus = RunStatus.FAILED then (db, .httpError 400 "Run already failed")
  else
    let db := { db with runStatus := RunStatus.RUNNING }
    match run_agent fuel (initAgent db) script with
    | .finished a => (a.db, .ok "Execution completed")
    | .stuck a => (a.db, .ok "Execution completed")
    | .raised a _ => ({ a.db with runStatus := RunStatus.FAILED },
        .httpError 500 "Execution failed")

/-- The pending tool call awaiting approval: latest PENDING ToolCall of
the run by created_at. -/
def latestPendingToolCall (db : Db) : Option ToolCallRec :=
  latestByCreated (db.tool_calls.filter
    (fun t => t.status = ToolCallStatus.PENDING))

/-- POST runs approve.  Only a run whose persisted status is
NEEDS_APPROVAL is accepted.  On approval the latest pending ToolCall
must exist and require approval; its tool is executed directly (the
outcome enters as toolResult), the same row gets outputs, SUCCESS and
executed_at, the run is set RUNNING and a fresh agent resumes with its
machine forced to EVALUATE.  On rejection the run is set FAILED and a
terminal Step numbered after the latest step is appended; the rejection
reason is returned in the response but not stored on the Step.  The
approval success path is split out as approve_resume_start: record the
direct tool execution outcome on the same ToolCall row, set the run
RUNNING, and build the resuming agent with its machine forced to
EVALUATE. -/
def approve_resume_start (db : Db) (ptc : ToolCallRec) (out : String) :
    Db × AgentState :=
  let (t, db) := db.alloc
  let db := { db with
    tool_calls := updateToolCallRow db.tool_calls ptc.id
      { ptc with
        outputs := some out,
        status := ToolCallStatus.SUCCESS, executed_at := some t },
    runStatus := RunStatus.RUNNING }
  (db, { initAgent db with sm := State.EVALUATE })

/-- POST runs approve (see approve_resume_start for the approved path). -/
def approve_run (db : Db) (approved : Bool) (reason : String)
    (toolResult : Except String String) (fuel : Nat) (script : List Event) :
    Db × ApiOutcome :=
  if ¬ (db.runStatus = RunStatus.NEEDS_APPROVAL) then
    (db, .httpError 400 "Run is not awaiting approval")
  else
    let latest := latestStep db.steps
    if approved then
      match latestPendingToolCall db with
      | none => (db, .httpError 400 "No pending tool call awaiting approval")
      | some ptc =>
          if ¬ requires_approval ptc.tool_name then
            (db, .httpError 400 "Pending tool call does not require approval")
          else
            match toolResult with
            | .error e =>
                ({ db with runStatus := RunStatus.FAILED },
                 .httpError 500 ("Approved tool execution failed: " ++ e))
            | .ok out =>
                let (db, a) := approve_resume_start db ptc out
                match run_agent fuel a script with
                | .finished a' => (a'.db, .ok "approved")
                | .stuck a' => (a'.db, .ok "approved")
                | .raised a' _ => (a'.db, .httpError 500 "agent raised")
    else
      let db := { db with runStatus := RunStatus.FAILED }
      let (sid, db) := db.alloc
      let step : StepRec :=
        { id := sid, run_id := 1, state := State.FAILED,
          step_number := (match latest with | none => 0 | some s => s.step_number) + 1,
          reasoning := none, created_at := sid, fromPlan := false }
      ({ db with steps := db.steps ++ [step] }, .ok ("rejected:" ++ reason))

/-- POST runs: a fresh Run with status RUNNING and no history. -/
def create_run (goal : String) : Db :=
  { runStatus := RunStatus.RUNNING, goal := goal, steps := [], tool_calls := [],
    retry := [], nextId := 1, visitedNA := false, dispatchCounts := [] }

/-- One external interaction with the service for a given run. -/
inductive SysEvent where
  | execute (fuel : Nat) (script : List Event)
  | approve (approved : Bool) (reason : String)
      (toolResult : Except String String) (fuel : Nat) (script : List Event)

/-- Apply one external interaction to the store. -/
def sys_step (db : Db) (e : SysEvent) : Db :=
  match e with
  | .execute fuel script => (execute_run fuel db script).1
  | .approve approved reason toolResult fuel script =>
      (approve_run db approved reason toolResult fuel script).1

/-- A whole service history over one run. -/
def sys_run (db : Db) (es : List SysEvent) : Db :=
  es.foldl sys_step db

/-! ## Observations and invariant predicates used by the theorems -/

/-- The agent state a handler result carries. -/
def HRes.agent : HRes → AgentState
  | .ok a => a
  | .exc a _ => a

/-- The agent state a loop step result carries. -/
def StepOutcome.agent : StepOutcome → AgentState
  | .ok a _ => a
  | .stuck a _ => a
  | .exc a _ _ => a

/-- The agent state a run result carries. -/
def RunResult.agent : RunResult → AgentState
  | .finished a => a
  | .stuck a => a
  | .raised a _ => a

/-- The step_number sequence of the PLAN created steps of a row list. -/
def planNumsL (l : List StepRec) : List Nat :=
  (l.filter (fun s => s.fromPlan)).map (fun s => s.step_number)

/-- The step_number sequence of the Steps created on PLAN entries, in
creation order. -/
def planStepNumbers (db : Db) : List Nat :=
  planNumsL db.steps

/-- Approval safety: whenever the store holds Run.status NEEDS_APPROVAL
the visit flag is set, and every approval requiring ToolCall that has
reached SUCCESS demanded the run to have passed through NEEDS_APPROVAL. -/
def approvalInv (db : Db) : Prop :=
  (db.runStatus = RunStatus.NEEDS_APPROVAL → db.visitedNA = true) ∧
  ∀ tc ∈ db.tool_calls, requires_approval tc.tool_name = true →
    tc.status = ToolCallStatus.SUCCESS → db.visitedNA = true

/-- Step numbering: the PLAN entry steps are numbered 1, 2, 3, ... in
creation order, with no gap. -/
def stepNumbersGapless (db : Db) : Prop :=
  planStepNumbers db = List.range' 1 (planStepNumbers db).length

/-- Every persisted Step of a run that has not FAILED was created by a
PLAN entry (synthetic terminal steps come with Run.status FAILED). -/
def stepsFromPlan (db : Db) : Prop :=
  ¬ db.runStatus = RunStatus.FAILED → ∀ st ∈ db.steps, st.fromPlan = true

/-- Retry accounting for one ToolCall row against the counter stores: a
row still eligible for dispatch has been dispatched at most as often as
its recorded attempts, the recorded attempts never exceed 3, and no row
is ever dispatched a 5th time. -/
def tcRetryOk (retry counts : List (Nat × Nat)) (tc : ToolCallRec) : Prop :=
  ((tc.status = ToolCallStatus.PENDING ∨ tc.status = ToolCallStatus.RUNNING) →
    (kvLookup counts tc.id).getD 0 ≤ (kvLookup retry tc.id).getD 0 ∧
    (kvLookup retry tc.id).getD 0 ≤ 3) ∧
  (kvLookup counts tc.id).getD 0 ≤ 4

/-- Retry accounting over the whole store. -/
def retryInv (db : Db) : Prop :=
  ∀ tc ∈ db.tool_calls, tcRetryOk db.retry db.dispatchCounts tc

/-- Primary keys and counter store keys are always below the allocator,
so a freshly allocated id matches no existing row or key. -/
def idsFresh (db : Db) : Prop :=
  (∀ st ∈ db.steps, st.id < db.nextId) ∧
  (∀ tc ∈ db.tool_calls, tc.id < db.nextId) ∧
  (∀ p ∈ db.retry, p.1 < db.nextId) ∧
  (∀ p ∈ db.dispatchCounts, p.1 < db.nextId) ∧
  (db.steps.map (fun s => s.id)).Nodup ∧
  (db.tool_calls.map (fun t => t.id)).Nodup

/-- Steps are persisted in creation order: every Step row is stamped
with the id the allocator handed out as its created_at, and the id
sequence strictly increases along the list, so the row with the greatest
created_at is the last row listed. -/
def stepsOrd (l : List StepRec) : Prop :=
  (∀ st ∈ l, st.created_at = st.id) ∧
  List.Pairwise (fun x y => x < y) (l.map (fun s => s.id))

/-- All store level invariants, holding between service interactions. -/
def dbInv (db : Db) : Prop :=
  approvalInv db ∧ stepNumbersGapless db ∧ stepsFromPlan db ∧ retryInv db ∧
  idsFresh db ∧ stepsOrd db.steps

/-- All agent level invariants, holding at the top of every loop
iteration: the store invariants, the linkage that a FAILED Run.status
only coexists with a FAILED machine, and counter coherence (away from
terminal states the step counter equals the number of PLAN entries). -/
def agentInv (a : AgentState) : Prop :=
  dbInv a.db ∧
  (¬ a.db.runStatus = RunStatus.FAILED ∨ a.sm = State.FAILED) ∧
  (a.sm.is_terminal = false → a.current_step_number = (planStepNumbers a.db).length)

/-! ## Concrete scenario scripts used by the theorems -/

/-- Valid search_logs inputs used by the scenarios. -/
def slInputs : Inputs := [("query", JValue.str "error")]

/-- Scenario: plan one search, succeed, evaluate continue, plan done. -/
def happyScript : List Event :=
  [ Event.plan (.call_tool "search_logs" slInputs "look for errors"),
    Event.dispatch (.success "twelve results"),
    Event.eval (.result "continue" (some "keep digging")),
    Event.plan (.done "goal achieved") ]

/-- Scenario: the evaluation oracle answers with decision needs_approval. -/
def naScript : List Event :=
  [ Event.plan (.call_tool "search_logs" slInputs "look for errors"),
    Event.dispatch (.success "twelve results"),
    Event.eval (.result "needs_approval" (some "please confirm")) ]

/-- Scenario: the planner proposes the approval requiring create_ticket. -/
def ticketScript : List Event :=
  [ Event.plan (.call_tool "create_ticket"
      [("title", JValue.str "incident"), ("description", JValue.str "details")]
      "file a ticket") ]

/-- Scenario: one tool call whose dispatch fails four times in a row. -/
def retryScript : List Event :=
  [ Event.plan (.call_tool "search_logs" slInputs "look for errors"),
    Event.dispatch .timeout, Event.dispatch .timeout,
    Event.dispatch .timeout, Event.dispatch .timeout ]

/-- Scenario: dispatch fails on attempts 1 and 2, succeeds on attempt 3. -/
def backoffScript : List Event :=
  [ Event.plan (.call_tool "search_logs" slInputs "look for errors"),
    Event.dispatch .timeout, Event.dispatch (.failure "boom"),
    Event.dispatch (.success "fine now"),
    Event.eval (.result "done" (some "all good")) ]

/-- A store paused for approval, as approve_run expects to find one: one
PLAN step holding a PENDING create_ticket call, Run.status
NEEDS_APPROVAL.  Used to exercise the approval endpoint. -/
def pausedDb : Db :=
  { runStatus := RunStatus.NEEDS_APPROVAL, goal := "file a ticket",
    steps := [ { id := 1, run_id := 1, state := State.NEEDS_APPROVAL,
                 step_number := 1, reasoning := some "file a ticket",
                 created_at := 1, fromPlan := true } ],
    tool_calls := [ { id := 2, step_id := 1, tool_name := "create_ticket",
                      inputs := [("title", JValue.str "incident"),
                                 ("description", JValue.str "details")],
                      outputs := none, status := ToolCallStatus.PENDING,
                      error_message := none, created_at := 2,
                      executed_at := none } ],
    retry := [], nextId := 3, visitedNA := true, dispatchCounts := [] }

/-- A mid run agent state inside EXECUTE_TOOL: one PLAN step with one
PENDING search_logs call that already failed twice (two recorded
attempts, two dispatches counted, two time units already slept). -/
def midAgent : AgentState :=
  { sm := State.EXECUTE_TOOL, current_step_number := 1, max_steps := 10,
    db := { runStatus := RunStatus.RUNNING, goal := "g",
            steps := [ { id := 1, run_id := 1, state := State.EXECUTE_TOOL,
                         step_number := 1, reasoning := some "look for errors",
                         created_at := 1, fromPlan := true } ],
            tool_calls := [ { id := 2, step_id := 1, tool_name := "search_logs",
                              inputs := slInputs, outputs := none,
                              status := ToolCallStatus.PENDING,
                              error_message := none, created_at := 2,
                              executed_at := none } ],
            retry := [(2, 2)], nextId := 3, visitedNA := false,
            dispatchCounts := [(2, 2)] },
    sleptTotal := 3, naHandlerCalls := 0 }

/-- The ToolCall row left behind by the retry exhaustion scenario. -/
def exhaustedTc : ToolCallRec :=
  { id := 2, step_id := 1, tool_name := "search_logs",
    inputs := [("query", JValue.str "error"), ("time_range", JValue.str "1h")],
    outputs := none, status := ToolCallStatus.FAILED,
    error_message := some "Timeout after 30 seconds (3 retries)",
    created_at := 2, executed_at := none }

/-! # Theorems -/

/-- Claim C1: for every state S and target T, StateMachine.transition(T)
from current state S succeeds if and only if T is in the fixed
transition table for S; on success the new state is T and it is appended
to the history; on failure it raises an InvalidTransition error naming
the current state, the target and the legal set, and (the exception
being raised before any mutation) leaves current_state unchanged; in
particular no transition out of DONE or FAILED ever succeeds. -/
theorem C1_transition_table (sm : StateMachine) (t : State) :
    ((∃ sm', sm.transition t = .ok sm') ↔ t ∈ TRANSITIONS sm.current_state) ∧
    (∀ sm', sm.transition t = .ok sm' →
      sm'.current_state = t ∧
      sm'.transition_history = sm.transition_history ++ [t]) ∧
    (∀ e, sm.transition t = .error e →
      e.current = sm.current_state ∧ e.target = t ∧
      e.valid = TRANSITIONS sm.current_state) ∧
    (sm.current_state.is_terminal = true → ∀ sm', sm.transition t ≠ .ok sm') := by
  by_cases h : t ∈ TRANSITIONS sm.current_state
  · refine ⟨⟨fun _ => h,
      fun _ => ⟨{ current_state := t,
                  transition_history := sm.transition_history ++ [t] }, ?_⟩⟩,
      fun sm' hok => ?_, fun e he => ?_, fun hterm sm' => ?_⟩
    · simp [StateMachine.transition, StateMachine.can_transition, h]
    · simp [StateMachine.transition, StateMachine.can_transition, h] at hok
      simp [← hok]
    · simp [StateMachine.transition, StateMachine.can_transition, h] at he
    · exfalso
      have h2 : TRANSITIONS sm.current_state = [] := by
        rcases sm with ⟨s, hist⟩
        simp only [State.is_terminal] at hterm
        rcases of_decide_eq_true hterm with h3 | h3 <;> simp_all [TRANSITIONS]
      rw [h2] at h
      exact absurd h (List.not_mem_nil t)
  · refine ⟨⟨fun ⟨sm', hok⟩ => ?_, fun hmem => absurd hmem h⟩,
      fun sm' hok => ?_, fun e he => ?_, fun _ sm' hok => ?_⟩
    · simp [StateMachine.transition, StateMachine.can_transition, h] at hok
    · simp [StateMachine.transition, StateMachine.can_transition, h] at hok
    · simp only [StateMachine.transition, StateMachine.can_transition] at he
      rw [if_neg (by simpa using h)] at he
      cases he
      exact ⟨rfl, rfl, rfl⟩
    · simp [StateMachine.transition, StateMachine.can_transition, h] at hok

/-- Witness for C1 at a concrete machine and target. -/
theorem C1_transition_table_witness :
    ((∃ sm', (StateMachine.init State.PLAN).transition State.EXECUTE_TOOL = .ok sm') ↔
      State.EXECUTE_TOOL ∈ TRANSITIONS (StateMachine.init State.PLAN).current_state) ∧
    (∀ sm', (StateMachine.init State.PLAN).transition State.EXECUTE_TOOL = .ok sm' →
      sm'.current_state = State.EXECUTE_TOOL ∧
      sm'.transition_history =
        (StateMachine.init State.PLAN).transition_history ++ [State.EXECUTE_TOOL]) ∧
    (∀ e, (StateMachine.init State.PLAN).transition State.EXECUTE_TOOL = .error e →
      e.current = (StateMachine.init State.PLAN).current_state ∧
      e.target = State.EXECUTE_TOOL ∧
      e.valid = TRANSITIONS (StateMachine.init State.PLAN).current_state) ∧
    ((StateMachine.init State.PLAN).current_state.is_terminal = true →
      ∀ sm', (StateMachine.init State.PLAN).transition State.EXECUTE_TOOL ≠ .ok sm') :=
  C1_transition_table (StateMachine.init State.PLAN) State.EXECUTE_TOOL

/-- Helper: the FAILED helper from a non-terminal state, spelled out. -/
theorem transition_to_failed_eq (a : AgentState) (r : String)
    (h : ¬ (a.sm = State.DONE ∨ a.sm = State.FAILED)) :
    transition_to_failed a r =
      { a with
        sm := State.FAILED,
        db := { a.db with
                nextId := a.db.nextId + 1,
                steps := a.db.steps ++
                  [{ id := a.db.nextId,
                     run_id := 1,
                     state := State.FAILED,
                     step_number := a.current_step_number + 1,
                     reasoning := some r,
                     created_at := a.db.nextId,
                     fromPlan := false }],
                runStatus := RunStatus.FAILED } } := by
  simp [transition_to_failed, h, Db.alloc]

/-- Claim C10: the FAILED transition helper is idempotent: invoked on a
run already in a terminal state it makes no change at all (in particular
no new Step); from a non-terminal state, two successive invocations
leave exactly one appended terminal FAILED Step. -/
theorem C10_failed_helper_idempotent (a : AgentState) (r1 r2 : String) :
    (a.sm.is_terminal = true → transition_to_failed a r1 = a) ∧
    (a.sm.is_terminal = false →
      transition_to_failed (transition_to_failed a r1) r2 =
        transition_to_failed a r1 ∧
      ∃ st, (transition_to_failed a r1).db.steps = a.db.steps ++ [st] ∧
        st.state = State.FAILED ∧ st.reasoning = some r1) := by
  constructor
  · intro hterm
    have h : a.sm = State.DONE ∨ a.sm = State.FAILED := by
      simpa [State.is_terminal] using of_decide_eq_true hterm
    simp [transition_to_failed, h]
  · intro hnon
    have h : ¬ (a.sm = State.DONE ∨ a.sm = State.FAILED) := by
      intro hc
      rw [show a.sm.is_terminal = true by simp [State.is_terminal, hc]] at hnon
      cases hnon
    constructor
    · simp [transition_to_failed, h, Db.alloc]
    · refine ⟨{ id := a.db.nextId,
                run_id := 1,
                state := State.FAILED,
                step_number := a.current_step_number + 1,
                reasoning := some r1,
                created_at := a.db.nextId,
                fromPlan := false }, ?_, rfl, rfl⟩
      simp [transition_to_failed, h, Db.alloc]

/-- Witness for C10 at a concrete non-terminal agent state. -/
theorem C10_failed_helper_idempotent_witness :
    ((initAgent (create_run "g")).sm.is_terminal = true →
      transition_to_failed (initAgent (create_run "g")) "a" = initAgent (create_run "g")) ∧
    ((initAgent (create_run "g")).sm.is_terminal = false →
      transition_to_failed (transition_to_failed (initAgent (create_run "g")) "a") "b" =
        transition_to_failed (initAgent (create_run "g")) "a" ∧
      ∃ st, (transition_to_failed (initAgent (create_run "g")) "a").db.steps =
          (initAgent (create_run "g")).db.steps ++ [st] ∧
        st.state = State.FAILED ∧ st.reasoning = some "a") :=
  C10_failed_helper_idempotent (initAgent (create_run "g")) "a" "b"

/-- Claim C8: the EVALUATE handler maps the oracle decision exactly as
continue to PLAN, done to DONE, needs_approval to NEEDS_APPROVAL, failed
to FAILED carrying the given reason on the appended terminal Step, and
any other decision value (for example maybe) routes the run to FAILED
citing the unknown decision. -/
theorem C8_evaluate_decision_mapping (a : AgentState) (d : String)
    (reason : Option String) (h : a.sm = State.EVALUATE) :
    (d = "continue" → ∃ a', handle_evaluate_state a (.result d reason) = .ok a' ∧
      a'.sm = State.PLAN) ∧
    (d = "done" → ∃ a', handle_evaluate_state a (.result d reason) = .ok a' ∧
      a'.sm = State.DONE) ∧
    (d = "needs_approval" → ∃ a', handle_evaluate_state a (.result d reason) = .ok a' ∧
      a'.sm = State.NEEDS_APPROVAL) ∧
    (d = "failed" → ∃ a', handle_evaluate_state a (.result d reason) = .ok a' ∧
      a'.sm = State.FAILED ∧ a'.db.runStatus = RunStatus.FAILED ∧
      (a'.db.steps.getLast?).map (fun st => (st.state, st.reasoning)) =
        some (State.FAILED, some (reason.getD "Agent decided to fail"))) ∧
    (d ≠ "continue" → d ≠ "done" → d ≠ "needs_approval" → d ≠ "failed" →
      ∃ a', handle_evaluate_state a (.result d reason) = .ok a' ∧
      a'.sm = State.FAILED ∧ a'.db.runStatus = RunStatus.FAILED ∧
      (a'.db.steps.getLast?).map (fun st => (st.state, st.reasoning)) =
        some (State.FAILED, some ("Unknown decision: " ++ d))) := by
  have hs : State.transitionTo a.sm State.PLAN = .ok State.PLAN := by
    rw [h]; rfl
  have hd : State.transitionTo a.sm State.DONE = .ok State.DONE := by
    rw [h]; rfl
  have hn : State.transitionTo a.sm State.NEEDS_APPROVAL = .ok State.NEEDS_APPROVAL := by
    rw [h]; rfl
  refine ⟨?_, ?_, ?_, ?_, ?_⟩
  · rintro rfl
    cases hf : a.db.steps.find? (isCurrentStep a.current_step_number) with
    | none => simp [handle_evaluate_state, hf, hs]
    | some st => simp [handle_evaluate_state, hf, hs]
  · rintro rfl
    cases hf : a.db.steps.find? (isCurrentStep a.current_step_number) with
    | none => simp [handle_evaluate_state, hf, hd]
    | some st => simp [handle_evaluate_state, hf, hd]
  · rintro rfl
    cases hf : a.db.steps.find? (isCurrentStep a.current_step_number) with
    | none => simp [handle_evaluate_state, hf, hn]
    | some st => simp [handle_evaluate_state, hf, hn]
  · rintro rfl
    cases hf : a.db.steps.find? (isCurrentStep a.current_step_number) with
    | none =>
        simp only [handle_evaluate_state, hf]
        rw [transition_to_failed_eq _ _ (by simp [h])]
        simp [List.getLast?_concat]
    | some st =>
        simp only [handle_evaluate_state, hf]
        rw [transition_to_failed_eq _ _ (by simp [h])]
        simp [List.getLast?_concat]
  · intro h1 h2 h3 h4
    cases hf : a.db.steps.find? (isCurrentStep a.current_step_number) with
    | none =>
        simp only [handle_evaluate_state, hf]
        rw [if_neg h1, if_neg h2, if_neg h3, if_neg h4]
        rw [transition_to_failed_eq _ _ (by simp [h])]
        simp [List.getLast?_concat]
    | some st =>
        simp only [handle_evaluate_state, hf]
        rw [if_neg h1, if_neg h2, if_neg h3, if_neg h4]
        rw [transition_to_failed_eq _ _ (by simp [h])]
        simp [List.getLast?_concat]

/-- Witness for C8: the unknown decision maybe at a concrete state. -/
theorem C8_evaluate_decision_mapping_witness :
    ∃ a',
      handle_evaluate_state { initAgent (create_run "g") with sm := State.EVALUATE }
        (.result "maybe" (some "unsure")) = .ok a' ∧
      a'.sm = State.FAILED ∧ a'.db.runStatus = RunStatus.FAILED ∧
      (a'.db.steps.getLast?).map (fun st => (st.state, st.reasoning)) =
        some (State.FAILED, some ("Unknown decision: " ++ "maybe")) :=
  (C8_evaluate_decision_mapping
    { initAgent (create_run "g") with sm := State.EVALUATE } "maybe" (some "unsure")
    rfl).2.2.2.2 (by decide) (by decide) (by decide) (by decide)

/-- Helper: a missing required parameter makes the required check fail. -/
theorem checkRequired_error_of_missing (required : List String) (inputs : Inputs)
    (r : String) (hr : r ∈ required) (hm : inputs.lookup r = none) :
    ∃ e, checkRequired required inputs = .error e := by
  induction required with
  | nil => cases hr
  | cons x rest ih =>
      unfold checkRequired
      cases hx : inputs.lookup x with
      | none => exact ⟨_, rfl⟩
      | some v =>
          rcases List.mem_cons.mp hr with rfl | hr2
          · rw [hx] at hm; cases hm
          · exact ih hr2

/-- Helper: the required check passes when every required key is present. -/
theorem checkRequired_ok_of_present (required : List String) (inputs : Inputs)
    (h : ∀ r ∈ required, (inputs.lookup r).isSome = true) :
    checkRequired required inputs = .ok () := by
  induction required with
  | nil => rfl
  | cons x rest ih =>
      unfold checkRequired
      cases hx : inputs.lookup x with
      | none =>
          have hx2 := h x (List.mem_cons_self _ _)
          rw [hx] at hx2
          cases hx2
      | some v => exact ih (fun r hr => h r (List.mem_cons_of_mem _ hr))

/-- Helper: the per value checks return the value unchanged and imply
type and enum conformance. -/
theorem checkParamValue_ok (n : String) (cfg : ParamConfig) (v v' : JValue)
    (h : checkParamValue n cfg v = .ok v') :
    v' = v ∧ typeMatches cfg.type v = true ∧ enumMatches cfg.enum v = true := by
  unfold checkParamValue at h
  by_cases h1 : cfg.type = some "string" ∧ ¬ v.isStr = true
  · simp only [h1, if_pos] at h
    exact absurd h (by simp)
  · rw [if_neg h1] at h
    by_cases h2 : cfg.type = some "array" ∧ ¬ v.isArr = true
    · simp only [h2, if_pos] at h
      exact absurd h (by simp)
    · rw [if_neg h2] at h
      have htype : typeMatches cfg.type v = true := by
        unfold typeMatches
        by_cases hs : cfg.type = some "string"
        · rw [if_pos hs]
          rcases Decidable.not_and_iff_or_not.mp h1 with hc | hc
          · exact absurd hs hc
          · simpa using hc
        · rw [if_neg hs]
          by_cases ha : cfg.type = some "array"
          · rw [if_pos ha]
            rcases Decidable.not_and_iff_or_not.mp h2 with hc | hc
            · exact absurd ha hc
            · simpa using hc
          · rw [if_neg ha]
      cases he : cfg.enum with
      | none =>
          rw [he] at h
          cases h
          exact ⟨rfl, htype, by simp [enumMatches, he]⟩
      | some es =>
          rw [he] at h
          cases v with
          | str s =>
              by_cases hs : s ∈ es
              · simp only [hs, if_pos] at h
                cases h
                exact ⟨rfl, htype, by simpa [enumMatches, he] using hs⟩
              · simp [hs] at h
          | int n2 => simp at h
          | boolean b => simp at h
          | arr l => simp at h
          | null => simp at h

/-- Helper: a validated mapping only contains recognized parameters. -/
theorem validateProps_ok_keys (props : List (String × ParamConfig))
    (inputs : Inputs) (m : Inputs) (h : validateProps props inputs = .ok m) :
    ∀ kv ∈ m, kv.1 ∈ props.map Prod.fst := by
  induction props generalizing m with
  | nil =>
      unfold validateProps at h
      cases h
      simp
  | cons p rest ih =>
      rcases p with ⟨k0, c0⟩
      unfold validateProps at h
      cases hc : consideredValue inputs (k0, c0) with
      | none =>
          rw [hc] at h
          intro kv hkv
          exact List.mem_cons_of_mem _ (ih m h kv hkv)
      | some v =>
          rw [hc] at h
          dsimp only at h
          cases hck : checkParamValue k0 c0 v with
          | error e => rw [hck] at h; cases h
          | ok v' =>
              rw [hck] at h
              cases hrest : validateProps rest inputs with
              | error e => rw [hrest] at h; cases h
              | ok m' =>
                  rw [hrest] at h
                  cases h
                  intro kv hkv
                  rcases List.mem_cons.mp hkv with rfl | hkv2
                  · simp
                  · exact List.mem_cons_of_mem _ (ih m' hrest kv hkv2)

/-- Helper: declared defaults are applied for absent parameters. -/
theorem validateProps_ok_default (props : List (String × ParamConfig))
    (inputs : Inputs) (m : Inputs) (k : String) (cfg : ParamConfig) (d : JValue)
    (h : validateProps props inputs = .ok m) (hp : (k, cfg) ∈ props)
    (hl : inputs.lookup k = none) (hd : cfg.default = some d) : (k, d) ∈ m := by
  induction props generalizing m with
  | nil => cases hp
  | cons p rest ih =>
      rcases p with ⟨k0, c0⟩
      unfold validateProps at h
      cases hc : consideredValue inputs (k0, c0) with
      | none =>
          rw [hc] at h
          rcases List.mem_cons.mp hp with heq | hp2
          · cases heq
            unfold consideredValue at hc
            rw [hl] at hc
            simp only at hc
            rw [hd] at hc
            cases hc
          · exact ih m h hp2
      | some v =>
          rw [hc] at h
          dsimp only at h
          cases hck : checkParamValue k0 c0 v with
          | error e => rw [hck] at h; cases h
          | ok v' =>
              rw [hck] at h
              cases hrest : validateProps rest inputs with
              | error e => rw [hrest] at h; cases h
              | ok m' =>
                  rw [hrest] at h
                  cases h
                  rcases List.mem_cons.mp hp with heq | hp2
                  · cases heq
                    unfold consideredValue at hc
                    rw [hl] at hc
                    simp only at hc
                    rw [hd] at hc
                    cases hc
                    have := (checkParamValue_ok _ _ _ _ hck).1
                    subst this
                    exact List.mem_cons_self _ _
                  · exact List.mem_cons_of_mem _ (ih m' hrest hp2)

/-- Helper: every validated value passed its declared checks. -/
theorem validateProps_ok_mem (props : List (String × ParamConfig))
    (inputs : Inputs) (m : Inputs) (h : validateProps props inputs = .ok m) :
    ∀ kv ∈ m, ∃ cfg, (kv.1, cfg) ∈ props ∧
      typeMatches cfg.type kv.2 = true ∧ enumMatches cfg.enum kv.2 = true := by
  induction props generalizing m with
  | nil =>
      unfold validateProps at h
      cases h
      simp
  | cons p rest ih =>
      rcases p with ⟨k0, c0⟩
      unfold validateProps at h
      cases hc : consideredValue inputs (k0, c0) with
      | none =>
          rw [hc] at h
          intro kv hkv
          obtain ⟨cfg, hcfg, ht, hen⟩ := ih m h kv hkv
          exact ⟨cfg, List.mem_cons_of_mem _ hcfg, ht, hen⟩
      | some v =>
          rw [hc] at h
          dsimp only at h
          cases hck : checkParamValue k0 c0 v with
          | error e => rw [hck] at h; cases h
          | ok v' =>
              rw [hck] at h
              cases hrest : validateProps rest inputs with
              | error e => rw [hrest] at h; cases h
              | ok m' =>
                  rw [hrest] at h
                  cases h
                  intro kv hkv
                  rcases List.mem_cons.mp hkv with rfl | hkv2
                  · obtain ⟨heq, ht, hen⟩ := checkParamValue_ok _ _ _ _ hck
                    subst heq
                    exact ⟨c0, List.mem_cons_self _ _, ht, hen⟩
                  · obtain ⟨cfg, hcfg, ht, hen⟩ := ih m' hrest kv hkv2
                    exact ⟨cfg, List.mem_cons_of_mem _ hcfg, ht, hen⟩

/-- Helper: no violating property means validation of the properties
succeeds. -/
theorem validateProps_ok_of_no_violation (props : List (String × ParamConfig))
    (inputs : Inputs) (h : ∀ p ∈ props, violatesProp inputs p = false) :
    ∃ m, validateProps props inputs = .ok m := by
  induction props with
  | nil => exact ⟨[], rfl⟩
  | cons p rest ih =>
      rcases p with ⟨k0, c0⟩
      obtain ⟨m', hm'⟩ := ih (fun q hq => h q (List.mem_cons_of_mem _ hq))
      have hp0 := h (k0, c0) (List.mem_cons_self _ _)
      unfold validateProps
      cases hc : consideredValue inputs (k0, c0) with
      | none => exact ⟨m', hm'⟩
      | some v =>
          unfold violatesProp at hp0
          rw [hc] at hp0
          dsimp only at hp0
          cases hck : checkParamValue k0 c0 v with
          | error e => rw [hck] at hp0; cases hp0
          | ok v' =>
              refine ⟨(k0, v') :: m', ?_⟩
              simp only [hck, hm']

/-- Helper: validation fails with exactly the error of the first
violating property in declaration order. -/
theorem validateProps_error_first (props : List (String × ParamConfig))
    (inputs : Inputs) (p : String × ParamConfig)
    (hf : props.find? (violatesProp inputs) = some p) :
    ∃ v e, consideredValue inputs p = some v ∧
      checkParamValue p.1 p.2 v = .error e ∧
      validateProps props inputs = .error e := by
  induction props with
  | nil => cases hf
  | cons q rest ih =>
      rcases q with ⟨k0, c0⟩
      rw [List.find?_cons] at hf
      by_cases hv : violatesProp inputs (k0, c0) = true
      · rw [hv] at hf
        cases hf
        unfold violatesProp at hv
        cases hc : consideredValue inputs (k0, c0) with
        | none => rw [hc] at hv; cases hv
        | some v =>
            rw [hc] at hv
            dsimp only at hv
            cases hck : checkParamValue k0 c0 v with
            | error e =>
                refine ⟨v, e, by simp [hc], hck, ?_⟩
                unfold validateProps
                simp only [hc, hck]
            | ok v' => rw [hck] at hv; cases hv
      · rw [Bool.not_eq_true] at hv
        rw [hv] at hf
        obtain ⟨v, e, hcv, hck, hvp⟩ := ih hf
        refine ⟨v, e, hcv, hck, ?_⟩
        unfold violatesProp at hv
        unfold validateProps
        cases hc : consideredValue inputs (k0, c0) with
        | none => exact hvp
        | some w =>
            rw [hc] at hv
            dsimp only at hv
            cases hck0 : checkParamValue k0 c0 w with
            | error e0 => rw [hck0] at hv; cases hv
            | ok w' => simp only [hck0, hvp]

/-- Helper: TOOLS lookup by name finds each registry entry. -/
theorem get_tool_schema_of_mem (entry : ToolEntry) (he : entry ∈ TOOLS) :
    get_tool_schema entry.name = .ok entry.schema := by
  fin_cases he <;> rfl

/-- Claim C9: for every registered tool and every raw input mapping,
validateInputs fails when a required parameter is absent; an ok result
contains only recognized parameters (unrecognized ones are silently
dropped), applies declared defaults for absent optional parameters, and
every included value conforms to its declared type and enum constraint;
and with the required parameters present it fails exactly when some
considered property value violates its checks, reporting the error of
the first violating property in declaration order. -/
theorem C9_validate_tool_inputs (entry : ToolEntry) (he : entry ∈ TOOLS)
    (inputs : Inputs) :
    ((∃ r ∈ entry.schema.required, inputs.lookup r = none) →
      ∃ e, validate_tool_inputs entry.name inputs = .error e) ∧
    (∀ m, validate_tool_inputs entry.name inputs = .ok m →
      (∀ kv ∈ m, kv.1 ∈ entry.schema.properties.map Prod.fst) ∧
      (∀ k cfg d, (k, cfg) ∈ entry.schema.properties →
        inputs.lookup k = none → cfg.default = some d → (k, d) ∈ m) ∧
      (∀ kv ∈ m, ∃ cfg, (kv.1, cfg) ∈ entry.schema.properties ∧
        typeMatches cfg.type kv.2 = true ∧ enumMatches cfg.enum kv.2 = true)) ∧
    ((∀ r ∈ entry.schema.required, (inputs.lookup r).isSome = true) →
      ((∃ e, validate_tool_inputs entry.name inputs = .error e) ↔
        ∃ p ∈ entry.schema.properties, violatesProp inputs p = true) ∧
      (∀ p, entry.schema.properties.find? (violatesProp inputs) = some p →
        ∃ v e, consideredValue inputs p = some v ∧
          checkParamValue p.1 p.2 v = .error e ∧
          validate_tool_inputs entry.name inputs = .error e)) := by
  have hs := get_tool_schema_of_mem entry he
  refine ⟨?_, ?_, ?_⟩
  · rintro ⟨r, hr, hm⟩
    obtain ⟨e, hce⟩ := checkRequired_error_of_missing entry.schema.required inputs r hr hm
    refine ⟨e, ?_⟩
    unfold validate_tool_inputs
    rw [hs]
    dsimp only
    rw [hce]
  · intro m hm
    unfold validate_tool_inputs at hm
    rw [hs] at hm
    dsimp only at hm
    cases hcr : checkRequired entry.schema.required inputs with
    | error e => rw [hcr] at hm; cases hm
    | ok u =>
        rw [hcr] at hm
        exact ⟨validateProps_ok_keys _ _ _ hm,
          fun k cfg d hp hl hd => validateProps_ok_default _ _ _ k cfg d hm hp hl hd,
          validateProps_ok_mem _ _ _ hm⟩
  · intro hall
    have hcr := checkRequired_ok_of_present entry.schema.required inputs hall
    have hval : validate_tool_inputs entry.name inputs =
        validateProps entry.schema.properties inputs := by
      unfold validate_tool_inputs
      rw [hs]
      dsimp only
      rw [hcr]
    constructor
    · constructor
      · rintro ⟨e, hee⟩
        rw [hval] at hee
        by_contra hno
        push_neg at hno
        obtain ⟨m, hm⟩ := validateProps_ok_of_no_violation entry.schema.properties inputs
          (fun p hp => by simpa using hno p hp)
        rw [hm] at hee
        cases hee
      · rintro ⟨p, hp, hv⟩
        have hfind : entry.schema.properties.find? (violatesProp inputs) ≠ none := by
          intro hn
          rw [List.find?_eq_none] at hn
          exact absurd hv (by simpa using hn p hp)
        cases hf : entry.schema.properties.find? (violatesProp inputs) with
        | none => exact absurd hf hfind
        | some q =>
            obtain ⟨v, e, _, _, hvp⟩ := validateProps_error_first _ _ q hf
            exact ⟨e, by rw [hval, hvp]⟩
    · intro p hf
      obtain ⟨v, e, hcv, hck, hvp⟩ := validateProps_error_first _ _ p hf
      exact ⟨v, e, hcv, hck, by rw [hval, hvp]⟩

/-- Witness for C9: create_ticket with empty inputs misses a required
parameter and fails validation. -/
theorem C9_validate_tool_inputs_witness :
    ∃ e, validate_tool_inputs "create_ticket" ([] : Inputs) = .error e := by
  have h := C9_validate_tool_inputs (TOOLS.get ⟨2, by decide⟩) (by decide) ([] : Inputs)
  exact h.1 ⟨"title", by decide, rfl⟩

/-! ## Store bookkeeping lemmas -/

/-- Helper: lookup of a key just written. -/
theorem kvLookup_kvSet_self (l : List (Nat × Nat)) (k v : Nat) :
    kvLookup (kvSet l k v) k = some v := by
  unfold kvLookup kvSet
  rw [List.find?_append]
  have h1 : (l.filter (fun p => ¬ p.1 = k)).find? (fun p => p.1 = k) = none := by
    rw [List.find?_eq_none]
    intro x hx
    simpa using (List.mem_filter.mp hx).2
  rw [h1]
  simp

/-- Helper: filtering by a predicate implied by the search predicate
does not change the first hit. -/
theorem find?_filter_of_imp {α : Type} (l : List α) (p q : α → Bool)
    (h : ∀ x, p x = true → q x = true) :
    (l.filter q).find? p = l.find? p := by
  induction l with
  | nil => rfl
  | cons x rest ih =>
      by_cases hq : q x = true
      · rw [List.filter_cons_of_pos hq]
        rw [List.find?_cons, List.find?_cons]
        cases hp : p x with
        | true => rfl
        | false => exact ih
      · have hp : p x = false := by
          cases hpx : p x with
          | true => exact absurd (h x hpx) hq
          | false => rfl
        rw [List.filter_cons_of_neg (by simpa using hq)]
        rw [ih, List.find?_cons, hp]

/-- Helper: lookup of another key after a write. -/
theorem kvLookup_kvSet_ne (l : List (Nat × Nat)) (k v k' : Nat) (h : ¬ k' = k) :
    kvLookup (kvSet l k v) k' = kvLookup l k' := by
  unfold kvLookup kvSet
  rw [List.find?_append]
  have h2 : ([(k, v)].find? (fun p => p.1 = k')) = none := by
    rw [List.find?_eq_none]
    intro x hx
    simp at hx
    rw [hx]
    simp
    intro hh
    exact h hh.symm
  rw [h2]
  rw [find?_filter_of_imp l _ _ (fun x hx => ?_)]
  · simp
  · simp at hx
    simp
    rw [hx]
    intro hh
    exact h hh

/-- Helper: lookup after deleting the same key. -/
theorem kvLookup_kvDelete_self (l : List (Nat × Nat)) (k : Nat) :
    kvLookup (kvDelete l k) k = none := by
  unfold kvLookup kvDelete
  have h1 : (l.filter (fun p => ¬ p.1 = k)).find? (fun p => p.1 = k) = none := by
    rw [List.find?_eq_none]
    intro x hx
    simpa using (List.mem_filter.mp hx).2
  rw [h1]
  rfl

/-- Helper: lookup of another key after a delete. -/
theorem kvLookup_kvDelete_ne (l : List (Nat × Nat)) (k k' : Nat) (h : ¬ k' = k) :
    kvLookup (kvDelete l k) k' = kvLookup l k' := by
  unfold kvLookup kvDelete
  rw [find?_filter_of_imp l _ _ (fun x hx => ?_)]
  · simp at hx
    simp
    rw [hx]
    intro hh
    exact h hh

/-- Helper: a key bound strictly below n is not n. -/
theorem kvLookup_none_of_bound (l : List (Nat × Nat)) (n : Nat)
    (h : ∀ p ∈ l, p.1 < n) : kvLookup l n = none := by
  unfold kvLookup
  have h1 : l.find? (fun p => p.1 = n) = none := by
    rw [List.find?_eq_none]
    intro x hx
    have := h x hx
    simp
    omega
  rw [h1]
  rfl

/-- Helper: bump reads back one more than the old count. -/
theorem kvLookup_kvBump_self (l : List (Nat × Nat)) (k : Nat) :
    kvLookup (kvBump l k) k = some ((kvLookup l k).getD 0 + 1) := by
  unfold kvBump
  exact kvLookup_kvSet_self l k _

/-- Helper: bump leaves other keys alone. -/
theorem kvLookup_kvBump_ne (l : List (Nat × Nat)) (k k' : Nat) (h : ¬ k' = k) :
    kvLookup (kvBump l k) k' = kvLookup l k' := by
  unfold kvBump
  exact kvLookup_kvSet_ne l k _ k' h

/-- Helper: keys of a write stay bounded when the bound covers the key. -/
theorem kvSet_bound (l : List (Nat × Nat)) (k v n : Nat)
    (h : ∀ p ∈ l, p.1 < n) (hk : k < n) : ∀ p ∈ kvSet l k v, p.1 < n := by
  intro p hp
  unfold kvSet at hp
  rcases List.mem_append.mp hp with hp1 | hp1
  · exact h p (List.mem_filter.mp hp1).1
  · simp at hp1
    rw [hp1]
    exact hk

/-- Helper: keys of a delete stay bounded. -/
theorem kvDelete_bound (l : List (Nat × Nat)) (k n : Nat)
    (h : ∀ p ∈ l, p.1 < n) : ∀ p ∈ kvDelete l k, p.1 < n := by
  intro p hp
  exact h p (List.mem_filter.mp hp).1

/-! ## Step numbering lemmas -/

/-- Helper: plan step numbers over an appended non PLAN step. -/
theorem planNumsL_append_nonplan (l : List StepRec)
    (st : StepRec) (h : st.fromPlan = false) :
    planNumsL (l ++ [st]) = planNumsL l := by
  unfold planNumsL
  simp [List.filter_append, h]

/-- Helper: plan step numbers over an appended PLAN step. -/
theorem planNumsL_append_plan (l : List StepRec)
    (st : StepRec) (h : st.fromPlan = true) :
    planNumsL (l ++ [st]) = planNumsL l ++ [st.step_number] := by
  unfold planNumsL
  simp [List.filter_append, h]

/-- Helper: plan step numbers ignore updates that preserve provenance
and numbering. -/
theorem planNumsL_map_congr (l : List StepRec) (g : StepRec → StepRec)
    (h : ∀ s ∈ l, (g s).fromPlan = s.fromPlan ∧ (g s).step_number = s.step_number) :
    planNumsL (l.map g) = planNumsL l := by
  unfold planNumsL
  induction l with
  | nil => rfl
  | cons s rest ih =>
      have hs := h s (List.mem_cons_self _ _)
      have ihr := ih (fun x hx => h x (List.mem_cons_of_mem _ hx))
      simp only [List.map_cons, List.filter_cons]
      rw [hs.1]
      cases hfp : s.fromPlan with
      | false => simpa using ihr
      | true =>
          simp only [if_pos]
          simp only [List.map_cons]
          rw [hs.2, ihr]

/-- Helper: appending the next number keeps the sequence gapless. -/
theorem gapless_append (ns : List Nat) (h : ns = List.range' 1 ns.length) :
    ns ++ [ns.length + 1] = List.range' 1 (ns.length + 1) := by
  rw [List.range'_concat]
  rw [← h]
  simp [Nat.add_comm]

/-! ## Latest row lemmas -/

/-- Helper: the fold behind latestByCreated returns the accumulator or a
list element. -/
theorem latestFold_mem (l : List ToolCallRec) :
    ∀ (acc : Option ToolCallRec) (x : ToolCallRec),
    List.foldl
      (fun acc y =>
        match acc with
        | none => some y
        | some b => if b.created_at ≤ y.created_at then some y else some b)
      acc l = some x →
    x ∈ l ∨ acc = some x := by
  induction l with
  | nil =>
      intro acc x hh
      exact Or.inr hh
  | cons y rest ih =>
      intro acc x hh
      rw [List.foldl_cons] at hh
      rcases ih _ x hh with hx | hx
      · exact Or.inl (List.mem_cons_of_mem _ hx)
      · cases acc with
        | none =>
            simp only at hx
            cases hx
            exact Or.inl (List.mem_cons_self _ _)
        | some b =>
            simp only at hx
            by_cases hc : b.created_at ≤ y.created_at
            · rw [if_pos hc] at hx
              cases hx
              exact Or.inl (List.mem_cons_self _ _)
            · rw [if_neg hc] at hx
              exact Or.inr hx

/-- Helper: latestByCreated returns a list element. -/
theorem latestByCreated_mem (l : List ToolCallRec) (x : ToolCallRec)
    (h : latestByCreated l = some x) : x ∈ l := by
  unfold latestByCreated at h
  rcases latestFold_mem l none x h with hx | hx
  · exact hx
  · cases hx

/-- Helper: the fold behind latestStep returns the accumulator or a list
element, maximizing step_number over the list and the accumulator. -/
theorem latestStepFold_spec (l : List StepRec) :
    ∀ (acc : Option StepRec) (x : StepRec),
    List.foldl
      (fun acc y =>
        match acc with
        | none => some y
        | some b =>
            if b.step_number < y.step_number ∨
               (b.step_number = y.step_number ∧ b.created_at ≤ y.created_at) then
              some y
            else some b)
      acc l = some x →
    (x ∈ l ∨ acc = some x) ∧
    (∀ s ∈ l, s.step_number ≤ x.step_number) ∧
    (∀ b, acc = some b → b.step_number ≤ x.step_number) := by
  induction l with
  | nil =>
      intro acc x hh
      refine ⟨Or.inr hh, by simp, fun b hb => ?_⟩
      rw [hb] at hh
      cases hh
      exact Nat.le_refl _
  | cons y rest ih =>
      intro acc x hh
      rw [List.foldl_cons] at hh
      obtain ⟨hmem, hmax, hacc⟩ := ih _ x hh
      have hyx : y.step_number ≤ x.step_number := by
        cases acc with
        | none => exact hacc y rfl
        | some b =>
            simp only at hacc
            by_cases hc : b.step_number < y.step_number ∨
                (b.step_number = y.step_number ∧ b.created_at ≤ y.created_at)
            · exact hacc y (by rw [if_pos hc])
            · have hb := hacc b (by rw [if_neg hc])
              push_neg at hc
              rcases Nat.lt_or_ge y.step_number b.step_number with hlt | hge
              · exact Nat.le_trans (Nat.le_of_lt hlt) hb
              · have := hc.1
                omega
      refine ⟨?_, fun s hs => ?_, fun b hb => ?_⟩
      · rcases hmem with hx | hx
        · exact Or.inl (List.mem_cons_of_mem _ hx)
        · cases acc with
          | none =>
              simp only at hx
              cases hx
              exact Or.inl (List.mem_cons_self _ _)
          | some b =>
              simp only at hx
              by_cases hc : b.step_number < y.step_number ∨
                  (b.step_number = y.step_number ∧ b.created_at ≤ y.created_at)
              · rw [if_pos hc] at hx
                cases hx
                exact Or.inl (List.mem_cons_self _ _)
              · rw [if_neg hc] at hx
                exact Or.inr hx
      · rcases List.mem_cons.mp hs with rfl | hs2
        · exact hyx
        · exact hmax s hs2
      · cases hb
        simp only at hacc
        by_cases hc : b.step_number < y.step_number ∨
            (b.step_number = y.step_number ∧ b.created_at ≤ y.created_at)
        · rcases hc with hlt | ⟨heq, _⟩
          · exact Nat.le_trans (Nat.le_of_lt hlt) hyx
          · rw [heq]
            exact hyx
        · exact hacc b (by rw [if_neg hc])

/-- Helper: latestStep returns a member that maximizes step_number. -/
theorem latestStep_spec (l : List StepRec) (x : StepRec)
    (h : latestStep l = some x) :
    x ∈ l ∧ ∀ s ∈ l, s.step_number ≤ x.step_number := by
  unfold latestStep at h
  obtain ⟨hmem, hmax, _⟩ := latestStepFold_spec l none x h
  rcases hmem with hx | hx
  · exact ⟨hx, hmax⟩
  · cases hx

/-- Helper: rows after a keyed update are untouched old rows (holding a
different key) or the new record. -/
theorem mem_updateToolCallRow (tcs : List ToolCallRec) (i : Nat)
    (r : ToolCallRec) (t : ToolCallRec) (ht : t ∈ updateToolCallRow tcs i r) :
    (t ∈ tcs ∧ ¬ t.id = i) ∨ t = r := by
  unfold updateToolCallRow at ht
  obtain ⟨s, hs, hst⟩ := List.mem_map.mp ht
  by_cases h : s.id = i
  · right
    rw [← hst, if_pos h]
  · left
    rw [← hst, if_neg h]
    exact ⟨hs, h⟩

/-- Helper: rows after a keyed step update are untouched old rows or the
new record. -/
theorem mem_updateStepRow (l : List StepRec) (i : Nat)
    (r : StepRec) (t : StepRec) (ht : t ∈ updateStepRow l i r) :
    (t ∈ l ∧ ¬ t.id = i) ∨ t = r := by
  unfold updateStepRow at ht
  obtain ⟨s, hs, hst⟩ := List.mem_map.mp ht
  by_cases h : s.id = i
  · right
    rw [← hst, if_pos h]
  · left
    rw [← hst, if_neg h]
    exact ⟨hs, h⟩

/-- Helper: a keyed row update with a record carrying the key leaves the
id sequence unchanged. -/
theorem updateStepRow_ids (l : List StepRec) (i : Nat) (r : StepRec)
    (hrid : r.id = i) :
    (updateStepRow l i r).map (fun s => s.id) = l.map (fun s => s.id) := by
  unfold updateStepRow
  rw [List.map_map]
  induction l with
  | nil => rfl
  | cons s rest ih =>
      simp only [List.map_cons]
      rw [ih]
      by_cases h : s.id = i
      · simp [Function.comp, h, hrid]
      · simp [Function.comp, h]

/-- Helper: a keyed row update with a record carrying the key leaves the
id sequence unchanged. -/
theorem updateToolCallRow_ids (l : List ToolCallRec) (i : Nat) (r : ToolCallRec)
    (hrid : r.id = i) :
    (updateToolCallRow l i r).map (fun t => t.id) = l.map (fun t => t.id) := by
  unfold updateToolCallRow
  rw [List.map_map]
  induction l with
  | nil => rfl
  | cons s rest ih =>
      simp only [List.map_cons]
      rw [ih]
      by_cases h : s.id = i
      · simp [Function.comp, h, hrid]
      · simp [Function.comp, h]

/-- Helper: the gated SUCCESS condition survives a row update whose new
record satisfies it. -/
theorem update_tc_part2 (tcs : List ToolCallRec) (i : Nat) (r : ToolCallRec)
    (v : Bool)
    (hold : ∀ tc ∈ tcs, requires_approval tc.tool_name = true →
      tc.status = ToolCallStatus.SUCCESS → v = true)
    (hr : requires_approval r.tool_name = true →
      r.status = ToolCallStatus.SUCCESS → v = true) :
    ∀ tc ∈ updateToolCallRow tcs i r, requires_approval tc.tool_name = true →
      tc.status = ToolCallStatus.SUCCESS → v = true := by
  intro tc htc
  rcases mem_updateToolCallRow _ _ _ _ htc with h1 | h1
  · exact hold tc h1.1
  · rw [h1]
    exact hr

/-- Helper: retry accounting survives a row update whose new record
satisfies it. -/
theorem update_tc_retry (tcs : List ToolCallRec) (i : Nat) (r : ToolCallRec)
    (retry counts : List (Nat × Nat))
    (hold : ∀ tc ∈ tcs, tcRetryOk retry counts tc)
    (hr : tcRetryOk retry counts r) :
    ∀ tc ∈ updateToolCallRow tcs i r, tcRetryOk retry counts tc := by
  intro tc htc
  rcases mem_updateToolCallRow _ _ _ _ htc with h1 | h1
  · exact hold tc h1.1
  · rw [h1]
    exact hr

/-- Helper: id bounds survive a row update whose new record is bounded. -/
theorem update_tc_bound (tcs : List ToolCallRec) (i : Nat) (r : ToolCallRec)
    (n : Nat) (hold : ∀ tc ∈ tcs, tc.id < n) (hr : r.id < n) :
    ∀ tc ∈ updateToolCallRow tcs i r, tc.id < n := by
  intro tc htc
  rcases mem_updateToolCallRow _ _ _ _ htc with h1 | h1
  · exact hold tc h1.1
  · rw [h1]
    exact hr

/-- Helper: id bounds survive a step row update whose new record is
bounded. -/
theorem update_step_bound (l : List StepRec) (i : Nat) (r : StepRec)
    (n : Nat) (hold : ∀ s ∈ l, s.id < n) (hr : r.id < n) :
    ∀ s ∈ updateStepRow l i r, s.id < n := by
  intro s hs
  rcases mem_updateStepRow _ _ _ _ hs with h1 | h1
  · exact hold s h1.1
  · rw [h1]
    exact hr

/-- Helper: provenance survives a step row update whose new record was
created on a PLAN entry. -/
theorem update_step_fromPlan (l : List StepRec) (i : Nat) (r : StepRec)
    (hold : ∀ s ∈ l, s.fromPlan = true) (hr : r.fromPlan = true) :
    ∀ s ∈ updateStepRow l i r, s.fromPlan = true := by
  intro s hs
  rcases mem_updateStepRow _ _ _ _ hs with h1 | h1
  · exact hold s h1.1
  · rw [h1]
    exact hr

/-- Helper: the plan step numbers ignore a keyed update that keeps the
provenance and number of the one row holding the key. -/
theorem planNumsL_update (l : List StepRec) (i : Nat) (r : StepRec)
    (st : StepRec) (hst : st ∈ l) (hstid : st.id = i)
    (hnodup : (l.map (fun s => s.id)).Nodup)
    (hfp : r.fromPlan = st.fromPlan) (hnum : r.step_number = st.step_number) :
    planNumsL (updateStepRow l i r) = planNumsL l := by
  unfold updateStepRow
  apply planNumsL_map_congr
  intro s hs
  by_cases h : s.id = i
  · have heq : s = st := by
      apply List.inj_on_of_nodup_map hnodup hs hst
      rw [h, hstid]
    rw [heq]
    simp [hstid, hfp, hnum]
  · simp [h]

/-! ## Invariant preservation -/

/-- Helper: when some row carries the key, the keyed update's
replacement row is in the updated list. -/
theorem updateToolCallRow_mem_self (l : List ToolCallRec) (i : Nat)
    (r : ToolCallRec) (t : ToolCallRec) (ht : t ∈ l) (hid : t.id = i) :
    r ∈ updateToolCallRow l i r := by
  unfold updateToolCallRow
  refine List.mem_map.mpr ⟨t, ht, ?_⟩
  rw [if_pos hid]

/-- Helper: appending a freshly allocated row keeps the steps in
creation order. -/
theorem stepsOrd_append (l : List StepRec) (st : StepRec) (n : Nat)
    (h : stepsOrd l) (hb : ∀ s ∈ l, s.id < n) (hid : st.id = n)
    (hca : st.created_at = st.id) : stepsOrd (l ++ [st]) := by
  constructor
  · intro s hs
    rcases List.mem_append.mp hs with h1 | h1
    · exact h.1 s h1
    · simp at h1
      rw [h1]
      exact hca
  · rw [List.map_append, List.pairwise_append]
    refine ⟨h.2, by simp, ?_⟩
    intro x hx y hy
    simp at hx hy
    obtain ⟨s, hs, hxid⟩ := hx
    rw [hy, hid, ← hxid]
    exact hb s hs

/-- Helper: a keyed row update that keeps the row's key and stamp keeps
the steps in creation order. -/
theorem stepsOrd_update (l : List StepRec) (i : Nat) (r : StepRec)
    (h : stepsOrd l) (hrid : r.id = i) (hca : r.created_at = r.id) :
    stepsOrd (updateStepRow l i r) := by
  constructor
  · intro s hs
    rcases mem_updateStepRow _ _ _ _ hs with h1 | h1
    · exact h.1 s h1.1
    · rw [h1]
      exact hca
  · rw [updateStepRow_ids _ _ _ hrid]
    exact h.2

/-- Helper: the FAILED helper preserves the loop invariants, from the
store invariants and the status linkage alone. -/
theorem agentInv_transition_to_failed (a : AgentState) (r : String)
    (h : dbInv a.db)
    (hlink : ¬ a.db.runStatus = RunStatus.FAILED ∨ a.sm = State.FAILED) :
    agentInv (transition_to_failed a r) := by
  by_cases ht : a.sm = State.DONE ∨ a.sm = State.FAILED
  · rw [show transition_to_failed a r = a by simp [transition_to_failed, ht]]
    refine ⟨h, hlink, fun hnt => ?_⟩
    exfalso
    rcases ht with h1 | h1 <;> simp [State.is_terminal, h1] at hnt
  · rw [transition_to_failed_eq a r ht]
    obtain ⟨⟨hap1, hap2⟩, hgap, hfp, hretry, ⟨hf1, hf2, hf3, hf4, hf5, hf6⟩, hord⟩ := h
    refine ⟨⟨⟨?_, ?_⟩, ?_, ?_, ?_, ⟨?_, ?_, ?_, ?_, ?_, ?_⟩, ?_⟩, ?_, ?_⟩
    · intro hna
      simp at hna
    · intro tc htc hg hsu
      exact hap2 tc htc hg hsu
    · unfold stepNumbersGapless planStepNumbers at hgap ⊢
      simp only
      rw [planNumsL_append_nonplan _ _ rfl]
      exact hgap
    · intro hrs
      simp at hrs
    · intro tc htc
      exact hretry tc htc
    · intro st hst
      rcases List.mem_append.mp hst with hst1 | hst1
      · exact Nat.lt_trans (hf1 st hst1) (Nat.lt_succ_self _)
      · simp at hst1
        rw [hst1]
        simp
    · intro tc htc
      exact Nat.lt_trans (hf2 tc htc) (Nat.lt_succ_self _)
    · intro p hp
      exact Nat.lt_trans (hf3 p hp) (Nat.lt_succ_self _)
    · intro p hp
      exact Nat.lt_trans (hf4 p hp) (Nat.lt_succ_self _)
    · rw [List.map_append]
      refine List.Nodup.append hf5 (by simp) ?_
      intro x hx1 hx2
      simp at hx1 hx2
      obtain ⟨st2, hst2, hid⟩ := hx1
      have := hf1 st2 hst2
      omega
    · exact hf6
    · exact stepsOrd_append _ _ _ hord hf1 rfl rfl
    · right
      rfl
    · intro hnt
      simp [State.is_terminal] at hnt

/-- Helper: inserting the next PLAN step preserves the store invariants
and extends the gapless numbering by one. -/
theorem dbInv_insert_plan_step (db : Db) (st : StepRec)
    (h : dbInv db) (hfp : st.fromPlan = true) (hid : st.id = db.nextId)
    (hca : st.created_at = st.id)
    (hnum : st.step_number = (planStepNumbers db).length + 1) :
    dbInv { db with nextId := db.nextId + 1, steps := db.steps ++ [st] } ∧
    planStepNumbers { db with nextId := db.nextId + 1, steps := db.steps ++ [st] } =
      List.range' 1 ((planStepNumbers db).length + 1) := by
  obtain ⟨⟨hap1, hap2⟩, hgap, hfpl, hretry, ⟨hf1, hf2, hf3, hf4, hf5, hf6⟩, hord⟩ := h
  have hplan : planStepNumbers { db with
      nextId := db.nextId + 1,
      steps := db.steps ++ [st] } = List.range' 1 ((planStepNumbers db).length + 1) := by
    unfold stepNumbersGapless planStepNumbers at hgap
    unfold planStepNumbers
    simp only
    rw [planNumsL_append_plan _ _ hfp, hnum]
    unfold planStepNumbers
    exact gapless_append _ hgap
  refine ⟨⟨⟨hap1, hap2⟩, ?_, ?_, hretry, ⟨?_, ?_, ?_, ?_, ?_, hf6⟩,
    stepsOrd_append _ _ _ hord hf1 hid hca⟩, hplan⟩
  · unfold stepNumbersGapless
    rw [hplan]
    simp
  · intro hrs st2 hst2
    rcases List.mem_append.mp hst2 with h1 | h1
    · exact hfpl hrs st2 h1
    · simp at h1
      rw [h1]
      exact hfp
  · intro st2 hst2
    rcases List.mem_append.mp hst2 with h1 | h1
    · exact Nat.lt_trans (hf1 st2 h1) (Nat.lt_succ_self _)
    · simp at h1
      rw [h1, hid]
      simp
  · intro tc htc
    exact Nat.lt_trans (hf2 tc htc) (Nat.lt_succ_self _)
  · intro p hp
    exact Nat.lt_trans (hf3 p hp) (Nat.lt_succ_self _)
  · intro p hp
    exact Nat.lt_trans (hf4 p hp) (Nat.lt_succ_self _)
  · rw [List.map_append]
    refine List.Nodup.append hf5 (by simp) ?_
    intro x hx1 hx2
    simp at hx1 hx2
    obtain ⟨st2, hst2, hid2⟩ := hx1
    have := hf1 st2 hst2
    rw [hx2, hid] at hid2
    omega

/-- Helper: inserting a fresh PENDING ToolCall preserves the store
invariants and the plan numbering. -/
theorem dbInv_insert_pending_tc (db : Db) (tc : ToolCallRec)
    (h : dbInv db) (hid : tc.id = db.nextId)
    (hst : tc.status = ToolCallStatus.PENDING) :
    dbInv { db with nextId := db.nextId + 1, tool_calls := db.tool_calls ++ [tc] } ∧
    planStepNumbers { db with
      nextId := db.nextId + 1,
      tool_calls := db.tool_calls ++ [tc] } = planStepNumbers db := by
  obtain ⟨⟨hap1, hap2⟩, hgap, hfpl, hretry, ⟨hf1, hf2, hf3, hf4, hf5, hf6⟩, hord⟩ := h
  refine ⟨⟨⟨hap1, ?_⟩, hgap, hfpl, ?_, ⟨?_, ?_, ?_, ?_, hf5, ?_⟩, hord⟩, rfl⟩
  · intro tc2 htc2
    rcases List.mem_append.mp htc2 with h1 | h1
    · exact hap2 tc2 h1
    · simp at h1
      rw [h1]
      intro _ hsu
      rw [hst] at hsu
      cases hsu
  · intro tc2 htc2
    rcases List.mem_append.mp htc2 with h1 | h1
    · exact hretry tc2 h1
    · simp at h1
      rw [h1]
      constructor
      · intro _
        rw [hid]
        rw [kvLookup_none_of_bound db.dispatchCounts db.nextId hf4]
        rw [kvLookup_none_of_bound db.retry db.nextId hf3]
        simp
      · rw [hid]
        rw [kvLookup_none_of_bound db.dispatchCounts db.nextId hf4]
        simp
  · intro st2 hst2
    exact Nat.lt_trans (hf1 st2 hst2) (Nat.lt_succ_self _)
  · intro tc2 htc2
    rcases List.mem_append.mp htc2 with h1 | h1
    · exact Nat.lt_trans (hf2 tc2 h1) (Nat.lt_succ_self _)
    · simp at h1
      rw [h1, hid]
      simp
  · intro p hp
    exact Nat.lt_trans (hf3 p hp) (Nat.lt_succ_self _)
  · intro p hp
    exact Nat.lt_trans (hf4 p hp) (Nat.lt_succ_self _)
  · rw [List.map_append]
    refine List.Nodup.append hf6 (by simp) ?_
    intro x hx1 hx2
    simp at hx1 hx2
    obtain ⟨tc2, htc2, hid2⟩ := hx1
    have := hf2 tc2 htc2
    rw [hx2, hid] at hid2
    omega

/-- Helper: a keyed step update keeping one existing row's provenance
and number preserves the store invariants and the plan numbering. -/
theorem dbInv_update_keep (db : Db) (i : Nat) (r old : StepRec)
    (h : dbInv db) (hold : old ∈ db.steps) (holdid : old.id = i)
    (hrid : r.id = i) (hfp : r.fromPlan = old.fromPlan)
    (hnum : r.step_number = old.step_number)
    (hca : r.created_at = old.created_at) :
    dbInv { db with steps := updateStepRow db.steps i r } ∧
    planStepNumbers { db with steps := updateStepRow db.steps i r } =
      planStepNumbers db := by
  obtain ⟨⟨hap1, hap2⟩, hgap, hfpl, hretry, ⟨hf1, hf2, hf3, hf4, hf5, hf6⟩, hord⟩ := h
  have hplan : planStepNumbers { db with steps := updateStepRow db.steps i r } =
      planStepNumbers db := by
    unfold planStepNumbers
    simp only
    exact planNumsL_update db.steps i r old hold holdid hf5 hfp hnum
  have hca2 : r.created_at = r.id := by
    rw [hca, hord.1 old hold, holdid, hrid]
  refine ⟨⟨⟨hap1, hap2⟩, ?_, ?_, hretry, ⟨?_, hf2, hf3, hf4, ?_, hf6⟩,
    stepsOrd_update _ _ _ hord hrid hca2⟩, hplan⟩
  · unfold stepNumbersGapless
    rw [hplan]
    exact hgap
  · intro hrs2 s hs
    rcases mem_updateStepRow _ _ _ _ hs with h1 | h1
    · exact hfpl hrs2 s h1.1
    · rw [h1, hfp]
      exact hfpl hrs2 old hold
  · exact update_step_bound _ _ _ _ hf1 (by rw [hrid, ← holdid]; exact hf1 old hold)
  · rw [updateStepRow_ids _ _ _ hrid]
    exact hf5

/-- Helper: the PLAN handler preserves the loop invariants when entered
with the step counter just advanced past the existing PLAN entries. -/
theorem agentInv_handle_plan (a : AgentState) (e : PlanEvent)
    (hdb : dbInv a.db) (hsm : a.sm = State.PLAN)
    (hrs : ¬ a.db.runStatus = RunStatus.FAILED)
    (hctr : a.current_step_number = (planStepNumbers a.db).length + 1) :
    agentInv ((handle_plan_state a e).agent) := by
  cases e with
  | apiError msg =>
      simp only [handle_plan_state, HRes.agent]
      exact agentInv_transition_to_failed a _ hdb (Or.inl hrs)
  | invalid msg =>
      simp only [handle_plan_state, HRes.agent]
      exact agentInv_transition_to_failed a _ hdb (Or.inl hrs)
  | done reasoning =>
      simp only [handle_plan_state, Db.alloc, hsm]
      rw [show State.transitionTo State.PLAN State.DONE = Except.ok State.DONE from rfl]
      simp only [HRes.agent]
      obtain ⟨hins, hplan⟩ := dbInv_insert_plan_step a.db
        { id := a.db.nextId, run_id := 1, state := State.PLAN,
          step_number := a.current_step_number, reasoning := some reasoning,
          created_at := a.db.nextId, fromPlan := true }
        hdb rfl rfl rfl hctr
      obtain ⟨hupd, hplan2⟩ := dbInv_update_keep _ a.db.nextId
        { id := a.db.nextId, run_id := 1, state := State.DONE,
          step_number := a.current_step_number, reasoning := some reasoning,
          created_at := a.db.nextId, fromPlan := true }
        { id := a.db.nextId, run_id := 1, state := State.PLAN,
          step_number := a.current_step_number, reasoning := some reasoning,
          created_at := a.db.nextId, fromPlan := true }
        hins (by simp) rfl rfl rfl rfl rfl
      refine ⟨hupd, Or.inl (by simpa using hrs), fun hnt => ?_⟩
      simp [State.is_terminal] at hnt
  | unknownAction action reasoning =>
      simp only [handle_plan_state, Db.alloc, HRes.agent]
      obtain ⟨hins, hplan⟩ := dbInv_insert_plan_step a.db
        { id := a.db.nextId, run_id := 1, state := State.PLAN,
          step_number := a.current_step_number, reasoning := some reasoning,
          created_at := a.db.nextId, fromPlan := true }
        hdb rfl rfl rfl hctr
      exact agentInv_transition_to_failed _ _ hins (Or.inl (by simpa using hrs))
  | call_tool tool_name inputs reasoning =>
      simp only [handle_plan_state, Db.alloc, hsm]
      obtain ⟨hins, hplan⟩ := dbInv_insert_plan_step a.db
        { id := a.db.nextId, run_id := 1, state := State.PLAN,
          step_number := a.current_step_number, reasoning := some reasoning,
          created_at := a.db.nextId, fromPlan := true }
        hdb rfl rfl rfl hctr
      by_cases hname : tool_name = ""
      · rw [if_pos hname]
        simp only [HRes.agent]
        exact agentInv_transition_to_failed _ _ hins (Or.inl (by simpa using hrs))
      · rw [if_neg hname]
        cases hv : validate_tool_inputs tool_name inputs with
        | error e =>
            simp only [HRes.agent]
            exact agentInv_transition_to_failed _ _ hins (Or.inl (by simpa using hrs))
        | ok validated =>
            rw [show State.transitionTo State.PLAN State.EXECUTE_TOOL =
              Except.ok State.EXECUTE_TOOL from rfl]
            simp only [HRes.agent]
            obtain ⟨hins2, hplan2⟩ := dbInv_insert_pending_tc _
              { id := a.db.nextId + 1, step_id := a.db.nextId,
                tool_name := tool_name, inputs := validated, outputs := none,
                status := ToolCallStatus.PENDING, error_message := none,
                created_at := a.db.nextId + 1, executed_at := none }
              hins rfl rfl
            refine ⟨hins2, Or.inl (by simpa using hrs), fun _ => ?_⟩
            rw [show planStepNumbers _ = _ from hplan2, hplan]
            simp [hctr]

/-- Helper: the EVALUATE handler preserves the loop invariants. -/
theorem agentInv_handle_evaluate (a : AgentState) (e : EvalEvent)
    (hdb : dbInv a.db) (hsm : a.sm = State.EVALUATE)
    (hrs : ¬ a.db.runStatus = RunStatus.FAILED)
    (hctr : a.current_step_number = (planStepNumbers a.db).length) :
    agentInv ((handle_evaluate_state a e).agent) := by
  cases e with
  | apiError msg =>
      simp only [handle_evaluate_state, HRes.agent]
      exact agentInv_transition_to_failed a _ hdb (Or.inl hrs)
  | invalid msg =>
      simp only [handle_evaluate_state, HRes.agent]
      exact agentInv_transition_to_failed a _ hdb (Or.inl hrs)
  | result d reasoning =>
      cases hf : a.db.steps.find? (isCurrentStep a.current_step_number) with
      | none =>
          simp only [handle_evaluate_state, hf]
          by_cases h1 : d = "continue"
          · rw [if_pos h1, hsm]
            rw [show State.transitionTo State.EVALUATE State.PLAN =
              Except.ok State.PLAN from rfl]
            simp only [HRes.agent]
            exact ⟨hdb, Or.inl hrs, fun _ => hctr⟩
          · rw [if_neg h1]
            by_cases h2 : d = "done"
            · rw [if_pos h2, hsm]
              rw [show State.transitionTo State.EVALUATE State.DONE =
                Except.ok State.DONE from rfl]
              simp only [HRes.agent]
              exact ⟨hdb, Or.inl hrs, fun hnt => by simp [State.is_terminal] at hnt⟩
            · rw [if_neg h2]
              by_cases h3 : d = "needs_approval"
              · rw [if_pos h3, hsm]
                rw [show State.transitionTo State.EVALUATE State.NEEDS_APPROVAL =
                  Except.ok State.NEEDS_APPROVAL from rfl]
                simp only [HRes.agent]
                exact ⟨hdb, Or.inl hrs, fun _ => hctr⟩
              · rw [if_neg h3]
                by_cases h4 : d = "failed"
                · rw [if_pos h4]
                  simp only [HRes.agent]
                  exact agentInv_transition_to_failed a _ hdb (Or.inl hrs)
                · rw [if_neg h4]
                  simp only [HRes.agent]
                  exact agentInv_transition_to_failed a _ hdb (Or.inl hrs)
      | some st =>
          have hmem := List.mem_of_find?_eq_some hf
          obtain ⟨hupd, hplan⟩ := dbInv_update_keep a.db st.id
            { st with
              reasoning := some ((st.reasoning.getD "") ++
                "\n[Evaluation] " ++ (reasoning.getD "")),
              state := State.EVALUATE }
            st hdb hmem rfl rfl rfl rfl rfl
          have hctr2 : a.current_step_number =
              (planStepNumbers { a.db with
                steps := updateStepRow a.db.steps st.id
                  { st with
                    reasoning := some ((st.reasoning.getD "") ++
                      "\n[Evaluation] " ++ (reasoning.getD "")),
                    state := State.EVALUATE } }).length := by
            rw [hplan]
            exact hctr
          simp only [handle_evaluate_state, hf]
          by_cases h1 : d = "continue"
          · rw [if_pos h1, hsm]
            rw [show State.transitionTo State.EVALUATE State.PLAN =
              Except.ok State.PLAN from rfl]
            simp only [HRes.agent]
            exact ⟨hupd, Or.inl (by simpa using hrs), fun _ => hctr2⟩
          · rw [if_neg h1]
            by_cases h2 : d = "done"
            · rw [if_pos h2, hsm]
              rw [show State.transitionTo State.EVALUATE State.DONE =
                Except.ok State.DONE from rfl]
              simp only [HRes.agent]
              exact ⟨hupd, Or.inl (by simpa using hrs),
                fun hnt => by simp [State.is_terminal] at hnt⟩
            · rw [if_neg h2]
              by_cases h3 : d = "needs_approval"
              · rw [if_pos h3, hsm]
                rw [show State.transitionTo State.EVALUATE State.NEEDS_APPROVAL =
                  Except.ok State.NEEDS_APPROVAL from rfl]
                simp only [HRes.agent]
                exact ⟨hupd, Or.inl (by simpa using hrs), fun _ => hctr2⟩
              · rw [if_neg h3]
                by_cases h4 : d = "failed"
                · rw [if_pos h4]
                  simp only [HRes.agent]
                  exact agentInv_transition_to_failed _ _ hupd
                    (Or.inl (by simpa using hrs))
                · rw [if_neg h4]
                  simp only [HRes.agent]
                  exact agentInv_transition_to_failed _ _ hupd
                    (Or.inl (by simpa using hrs))

/-- Helper: a keyed ToolCall update preserves the store invariants when
the new record holds the key, satisfies the approval condition and the
retry accounting. -/
theorem dbInv_update_tc (db : Db) (i : Nat) (r : ToolCallRec)
    (h : dbInv db) (hibnd : i < db.nextId) (hrid : r.id = i)
    (hap : requires_approval r.tool_name = true →
      r.status = ToolCallStatus.SUCCESS → db.visitedNA = true)
    (hret : tcRetryOk db.retry db.dispatchCounts r) :
    dbInv { db with tool_calls := updateToolCallRow db.tool_calls i r } ∧
    planStepNumbers { db with tool_calls := updateToolCallRow db.tool_calls i r } =
      planStepNumbers db := by
  obtain ⟨⟨hap1, hap2⟩, hgap, hfpl, hretry, ⟨hf1, hf2, hf3, hf4, hf5, hf6⟩, hord⟩ := h
  refine ⟨⟨⟨hap1, ?_⟩, hgap, hfpl, ?_, ⟨hf1, ?_, hf3, hf4, hf5, ?_⟩, hord⟩, rfl⟩
  · exact update_tc_part2 _ _ _ _ hap2 hap
  · exact update_tc_retry _ _ _ _ _ hretry hret
  · exact update_tc_bound _ _ _ _ hf2 (by rw [hrid]; exact hibnd)
  · rw [updateToolCallRow_ids _ _ _ hrid]
    exact hf6

/-- Helper: pausing the Run for approval (status NEEDS_APPROVAL with the
visit flag raised) preserves the store invariants. -/
theorem dbInv_set_na (db : Db) (h : dbInv db)
    (hrs : ¬ db.runStatus = RunStatus.FAILED) :
    dbInv { db with runStatus := RunStatus.NEEDS_APPROVAL, visitedNA := true } ∧
    planStepNumbers { db with
      runStatus := RunStatus.NEEDS_APPROVAL, visitedNA := true } =
      planStepNumbers db := by
  obtain ⟨⟨hap1, hap2⟩, hgap, hfpl, hretry, ⟨hf1, hf2, hf3, hf4, hf5, hf6⟩, hord⟩ := h
  refine ⟨⟨⟨fun _ => rfl, fun tc htc _ _ => rfl⟩, hgap, ?_, hretry,
    ⟨hf1, hf2, hf3, hf4, hf5, hf6⟩, hord⟩, rfl⟩
  intro _ st hst
  exact hfpl hrs st hst

/-- Helper: the allocator bump preserves the store invariants. -/
theorem dbInv_bump_nextId (db : Db) (h : dbInv db) :
    dbInv { db with nextId := db.nextId + 1 } ∧
    planStepNumbers { db with nextId := db.nextId + 1 } = planStepNumbers db := by
  obtain ⟨⟨hap1, hap2⟩, hgap, hfpl, hretry, ⟨hf1, hf2, hf3, hf4, hf5, hf6⟩, hord⟩ := h
  refine ⟨⟨⟨hap1, hap2⟩, hgap, hfpl, hretry, ⟨?_, ?_, ?_, ?_, hf5, hf6⟩, hord⟩, rfl⟩
  · exact fun st hst => Nat.lt_trans (hf1 st hst) (Nat.lt_succ_self _)
  · exact fun tc htc => Nat.lt_trans (hf2 tc htc) (Nat.lt_succ_self _)
  · exact fun p hp => Nat.lt_trans (hf3 p hp) (Nat.lt_succ_self _)
  · exact fun p hp => Nat.lt_trans (hf4 p hp) (Nat.lt_succ_self _)

/-- Helper: recording a dispatch outcome (the transient RUNNING row
finally replaced by the outcome record, with rewritten counter stores
touching only this row's key) preserves the store invariants. -/
theorem dbInv_dispatch_core (db : Db) (tc0 r : ToolCallRec)
    (newRetry newCounts : List (Nat × Nat))
    (hdb : dbInv db) (hmemt : tc0 ∈ db.tool_calls) (hrid : r.id = tc0.id)
    (hap2r : requires_approval r.tool_name = true →
      r.status = ToolCallStatus.SUCCESS → db.visitedNA = true)
    (hner : ∀ k, ¬ k = tc0.id → kvLookup newRetry k = kvLookup db.retry k)
    (hnec : ∀ k, ¬ k = tc0.id → kvLookup newCounts k = kvLookup db.dispatchCounts k)
    (hbr : ∀ p ∈ newRetry, p.1 < db.nextId)
    (hbc : ∀ p ∈ newCounts, p.1 < db.nextId)
    (hself : tcRetryOk newRetry newCounts r) :
    dbInv { db with
      tool_calls := updateToolCallRow (updateToolCallRow db.tool_calls tc0.id
        { tc0 with status := ToolCallStatus.RUNNING }) tc0.id r,
      retry := newRetry, dispatchCounts := newCounts } ∧
    planStepNumbers { db with
      tool_calls := updateToolCallRow (updateToolCallRow db.tool_calls tc0.id
        { tc0 with status := ToolCallStatus.RUNNING }) tc0.id r,
      retry := newRetry, dispatchCounts := newCounts } = planStepNumbers db := by
  obtain ⟨⟨hap1, hap2⟩, hgap, hfpl, hretry, ⟨hf1, hf2, hf3, hf4, hf5, hf6⟩, hord⟩ := hdb
  refine ⟨⟨⟨hap1, ?_⟩, hgap, hfpl, ?_, ⟨hf1, ?_, hbr, hbc, hf5, ?_⟩, hord⟩, rfl⟩
  · intro tc htc hg hsu
    rcases mem_updateToolCallRow _ _ _ _ htc with ⟨h1, hne⟩ | h1
    · rcases mem_updateToolCallRow _ _ _ _ h1 with ⟨h2, _⟩ | h2
      · exact hap2 tc h2 hg hsu
      · rw [h2] at hsu
        simp at hsu
    · rw [h1] at hg hsu
      exact hap2r hg hsu
  · intro tc htc
    rcases mem_updateToolCallRow _ _ _ _ htc with ⟨h1, hne⟩ | h1
    · rcases mem_updateToolCallRow _ _ _ _ h1 with ⟨h2, _⟩ | h2
      · obtain ⟨hb1, hb2⟩ := hretry tc h2
        refine ⟨fun hor => ?_, ?_⟩
        · rw [hner tc.id hne, hnec tc.id hne]
          exact hb1 hor
        · rw [hnec tc.id hne]
          exact hb2
      · exfalso
        rw [h2] at hne
        simp at hne
    · rw [h1]
      exact hself
  · refine update_tc_bound _ _ _ _ ?_ (by rw [hrid]; exact hf2 tc0 hmemt)
    exact update_tc_bound _ _ _ _ hf2 (hf2 tc0 hmemt)
  · rw [updateToolCallRow_ids _ tc0.id r hrid]
    rw [updateToolCallRow_ids db.tool_calls tc0.id
      { tc0 with status := ToolCallStatus.RUNNING }
      (show ({ tc0 with status := ToolCallStatus.RUNNING } : ToolCallRec).id = tc0.id from rfl)]
    exact hf6

theorem agentInv_handle_execute (a : AgentState) (script : List Event)
    (hdb : dbInv a.db) (hsm : a.sm = State.EXECUTE_TOOL)
    (hrs : ¬ a.db.runStatus = RunStatus.FAILED)
    (hctr : a.current_step_number = (planStepNumbers a.db).length) :
    agentInv ((handle_execute_state a script).agent) := by
  unfold handle_execute_state
  cases hfs : a.db.steps.find? (isCurrentStep a.current_step_number) with
  | none =>
      simp only [StepOutcome.agent]
      exact agentInv_transition_to_failed a _ hdb (Or.inl hrs)
  | some current_step =>
      dsimp only
      cases hft : a.db.tool_calls.find? (isPendingOf current_step.id) with
      | none =>
          dsimp only [StepOutcome.agent]
          exact agentInv_transition_to_failed a _ hdb (Or.inl hrs)
      | some tc0 =>
          dsimp only
          have hmemt := List.mem_of_find?_eq_some hft
          have hfind := List.find?_some hft
          have hpend : tc0.status = ToolCallStatus.PENDING := by
            unfold isPendingOf at hfind
            simp at hfind
            exact hfind.2
          have hmems := List.mem_of_find?_eq_some hfs
          have hdbk := hdb
          obtain ⟨hap, hgap, hfpl, hretry, ⟨hf1, hf2, hf3, hf4, hf5, hf6⟩, hord⟩ := hdbk
          have htcbnd : tc0.id < a.db.nextId := hf2 tc0 hmemt
          obtain ⟨hdb1, hplan1⟩ := dbInv_update_tc a.db tc0.id
            { tc0 with status := ToolCallStatus.RUNNING } hdb htcbnd rfl
            (by intro _ hsu; simp at hsu)
            (by
              obtain ⟨hb1, hb2⟩ := hretry tc0 hmemt
              exact ⟨fun _ => hb1 (Or.inl hpend), hb2⟩)
          by_cases hgate : requires_approval tc0.tool_name = true
          · rw [if_pos hgate, hsm]
            rw [show State.transitionTo State.EXECUTE_TOOL State.NEEDS_APPROVAL =
              Except.error { current := State.EXECUTE_TOOL,
                             target := State.NEEDS_APPROVAL,
                             valid := [State.EVALUATE, State.FAILED] } from rfl]
            dsimp only [StepOutcome.agent]
            obtain ⟨hdb2, hplan2⟩ := dbInv_set_na _ hdb1 (by simpa using hrs)
            obtain ⟨hdb3, hplan3⟩ := dbInv_update_tc _ tc0.id
              { tc0 with status := ToolCallStatus.PENDING } hdb2 htcbnd rfl
              (by intro _ hsu; cases hsu)
              ⟨fun _ => (hretry tc0 hmemt).1 (Or.inl hpend), (hretry tc0 hmemt).2⟩
            obtain ⟨hdb4, hplan4⟩ := dbInv_update_keep _ current_step.id
              { current_step with state := State.NEEDS_APPROVAL } current_step hdb3
              hmems rfl rfl rfl rfl rfl
            refine ⟨hdb4, Or.inl (by simp), fun _ => ?_⟩
            have hplanR := hplan4.trans (hplan3.trans (hplan2.trans hplan1))
            exact hctr.trans (congrArg List.length hplanR.symm)
          · rw [if_neg hgate]
            cases script with
            | nil =>
                dsimp only [StepOutcome.agent]
                exact ⟨hdb1, Or.inl (by simpa using hrs),
                  fun _ => hctr.trans (congrArg List.length hplan1.symm)⟩
            | cons ev rest =>
                cases ev with
                | plan e =>
                    dsimp only [StepOutcome.agent]
                    exact ⟨hdb1, Or.inl (by simpa using hrs),
                      fun _ => hctr.trans (congrArg List.length hplan1.symm)⟩
                | eval e =>
                    dsimp only [StepOutcome.agent]
                    exact ⟨hdb1, Or.inl (by simpa using hrs),
                      fun _ => hctr.trans (congrArg List.length hplan1.symm)⟩
                | dispatch d =>
                    dsimp only
                    have horig := hretry tc0 hmemt
                    have hcnt : (kvLookup a.db.dispatchCounts tc0.id).getD 0 ≤
                        (kvLookup a.db.retry tc0.id).getD 0 := (horig.1 (Or.inl hpend)).1
                    have hret3 : (kvLookup a.db.retry tc0.id).getD 0 ≤ 3 :=
                      (horig.1 (Or.inl hpend)).2
                    have hbv : (kvLookup (kvBump a.db.dispatchCounts tc0.id) tc0.id).getD 0 =
                        (kvLookup a.db.dispatchCounts tc0.id).getD 0 + 1 := by
                      rw [kvLookup_kvBump_self]
                      rfl
                    cases d with
                    | success out =>
                        dsimp only [Db.alloc]
                        rw [if_neg hgate, hsm]
                        rw [show State.transitionTo State.EXECUTE_TOOL State.EVALUATE =
                          Except.ok State.EVALUATE from rfl]
                        dsimp only [StepOutcome.agent]
                        obtain ⟨hcore, hplanc⟩ := dbInv_dispatch_core a.db tc0
                          { tc0 with
                            outputs := some out,
                            status := ToolCallStatus.SUCCESS,
                            executed_at := some a.db.nextId }
                          (kvDelete a.db.retry tc0.id)
                          (kvBump a.db.dispatchCounts tc0.id)
                          hdb hmemt rfl
                          (fun hg _ => absurd hg hgate)
                          (fun k hk => kvLookup_kvDelete_ne _ _ _ hk)
                          (fun k hk => kvLookup_kvBump_ne _ _ _ hk)
                          (kvDelete_bound _ _ _ hf3)
                          (fun p hp => kvSet_bound _ _ _ _ hf4 htcbnd p hp)
                          (by
                            constructor
                            · intro hor
                              dsimp only at hor
                              rcases hor with h | h <;> simp at h
                            · dsimp only
                              rw [hbv]
                              omega)
                        obtain ⟨hkeep, hplank⟩ := dbInv_update_keep _ current_step.id
                          { current_step with state := State.EVALUATE } current_step hcore
                          hmems rfl rfl rfl rfl rfl
                        obtain ⟨hbump, hplanb⟩ := dbInv_bump_nextId _ hkeep
                        refine ⟨hbump, Or.inl (by simpa using hrs), fun _ => ?_⟩
                        exact hctr.trans (congrArg List.length
                          (hplanb.trans (hplank.trans hplanc)).symm)
                    | timeout =>
                        dsimp only
                        by_cases hlt : (kvLookup a.db.retry tc0.id).getD 0 < 3
                        · rw [if_pos hlt]
                          dsimp only [StepOutcome.agent]
                          have hsv : (kvLookup (kvSet a.db.retry tc0.id
                              ((kvLookup a.db.retry tc0.id).getD 0 + 1)) tc0.id).getD 0 =
                              (kvLookup a.db.retry tc0.id).getD 0 + 1 := by
                            rw [kvLookup_kvSet_self]
                            rfl
                          obtain ⟨hcore, hplanc⟩ := dbInv_dispatch_core a.db tc0
                            { tc0 with status := ToolCallStatus.PENDING }
                            (kvSet a.db.retry tc0.id ((kvLookup a.db.retry tc0.id).getD 0 + 1))
                            (kvBump a.db.dispatchCounts tc0.id)
                            hdb hmemt rfl
                            (by intro _ hsu; simp at hsu)
                            (fun k hk => kvLookup_kvSet_ne _ _ _ _ hk)
                            (fun k hk => kvLookup_kvBump_ne _ _ _ hk)
                            (kvSet_bound _ _ _ _ hf3 htcbnd)
                            (fun p hp => kvSet_bound _ _ _ _ hf4 htcbnd p hp)
                            (by
                              constructor
                              · intro _
                                dsimp only
                                rw [hbv, hsv]
                                omega
                              · dsimp only
                                rw [hbv]
                                omega)
                          exact ⟨hcore, Or.inl (by simpa using hrs),
                            fun _ => hctr.trans (congrArg List.length hplanc.symm)⟩
                        · rw [if_neg hlt]
                          dsimp only [StepOutcome.agent]
                          obtain ⟨hcore, hplanc⟩ := dbInv_dispatch_core a.db tc0
                            { tc0 with
                              status := ToolCallStatus.FAILED,
                              error_message := some "Timeout after 30 seconds (3 retries)" }
                            a.db.retry
                            (kvBump a.db.dispatchCounts tc0.id)
                            hdb hmemt rfl
                            (by intro _ hsu; simp at hsu)
                            (fun k hk => rfl)
                            (fun k hk => kvLookup_kvBump_ne _ _ _ hk)
                            hf3
                            (fun p hp => kvSet_bound _ _ _ _ hf4 htcbnd p hp)
                            (by
                              constructor
                              · intro hor
                                dsimp only at hor
                                rcases hor with h | h <;> simp at h
                              · dsimp only
                                rw [hbv]
                                omega)
                          exact agentInv_transition_to_failed _ _ hcore
                            (Or.inl (by simpa using hrs))
                    | failure msg =>
                        dsimp only
                        by_cases hlt : (kvLookup a.db.retry tc0.id).getD 0 < 3
                        · rw [if_pos hlt]
                          dsimp only [StepOutcome.agent]
                          have hsv : (kvLookup (kvSet a.db.retry tc0.id
                              ((kvLookup a.db.retry tc0.id).getD 0 + 1)) tc0.id).getD 0 =
                              (kvLookup a.db.retry tc0.id).getD 0 + 1 := by
                            rw [kvLookup_kvSet_self]
                            rfl
                          obtain ⟨hcore, hplanc⟩ := dbInv_dispatch_core a.db tc0
                            { tc0 with status := ToolCallStatus.PENDING }
                            (kvSet a.db.retry tc0.id ((kvLookup a.db.retry tc0.id).getD 0 + 1))
                            (kvBump a.db.dispatchCounts tc0.id)
                            hdb hmemt rfl
                            (by intro _ hsu; simp at hsu)
                            (fun k hk => kvLookup_kvSet_ne _ _ _ _ hk)
                            (fun k hk => kvLookup_kvBump_ne _ _ _ hk)
                            (kvSet_bound _ _ _ _ hf3 htcbnd)
                            (fun p hp => kvSet_bound _ _ _ _ hf4 htcbnd p hp)
                            (by
                              constructor
                              · intro _
                                dsimp only
                                rw [hbv, hsv]
                                omega
                              · dsimp only
                                rw [hbv]
                                omega)
                          exact ⟨hcore, Or.inl (by simpa using hrs),
                            fun _ => hctr.trans (congrArg List.length hplanc.symm)⟩
                        · rw [if_neg hlt]
                          dsimp only [StepOutcome.agent]
                          obtain ⟨hcore, hplanc⟩ := dbInv_dispatch_core a.db tc0
                            { tc0 with
                              status := ToolCallStatus.FAILED,
                              error_message := some msg,
                              outputs := some ("error: " ++ msg) }
                            a.db.retry
                            (kvBump a.db.dispatchCounts tc0.id)
                            hdb hmemt rfl
                            (by intro _ hsu; simp at hsu)
                            (fun k hk => rfl)
                            (fun k hk => kvLookup_kvBump_ne _ _ _ hk)
                            hf3
                            (fun p hp => kvSet_bound _ _ _ _ hf4 htcbnd p hp)
                            (by
                              constructor
                              · intro hor
                                dsimp only at hor
                                rcases hor with h | h <;> simp at h
                              · dsimp only
                                rw [hbv]
                                omega)
                          exact agentInv_transition_to_failed _ _ hcore
                            (Or.inl (by simpa using hrs))

/-- Helper: the latest-step fold never answers none once seeded. -/
theorem latestStepFold_some (ys : List StepRec) : ∀ b : StepRec,
    ¬ List.foldl
      (fun acc x =>
        match acc with
        | none => some x
        | some b =>
            if b.step_number < x.step_number ∨
               (b.step_number = x.step_number ∧ b.created_at ≤ x.created_at) then
              some x
            else some b)
      (some b) ys = none := by
  induction ys with
  | nil =>
      intro b h
      cases h
  | cons z zs ih =>
      intro b h
      simp only [List.foldl_cons] at h
      by_cases hc : b.step_number < z.step_number ∨
          (b.step_number = z.step_number ∧ b.created_at ≤ z.created_at)
      · rw [if_pos hc] at h
        exact ih z h
      · rw [if_neg hc] at h
        exact ih b h

/-- Helper: only the empty history has no latest step. -/
theorem latestStep_eq_none (l : List StepRec) (h : latestStep l = none) :
    l = [] := by
  cases l with
  | nil => rfl
  | cons y ys =>
      exfalso
      unfold latestStep at h
      simp only [List.foldl_cons] at h
      exact latestStepFold_some ys y h

/-- Helper: when every Step was created by a PLAN entry the plan
numbering lists every row's step_number. -/
theorem planNumsL_all (l : List StepRec) (h : ∀ s ∈ l, s.fromPlan = true) :
    planNumsL l = l.map (fun s => s.step_number) := by
  unfold planNumsL
  rw [List.filter_eq_self.mpr]
  intro s hs
  simpa using h s hs

/-- The agent built for a run keeps the store it was built from. -/
theorem initAgent_db (db : Db) : (initAgent db).db = db := by
  unfold initAgent
  cases latestStep db.steps <;> rfl

/-- Rehydration: on a store whose Run has not FAILED, the agent built
from the latest persisted Step carries the step counter equal to the
number of PLAN entries persisted so far. -/
theorem initAgent_ctr (db : Db) (hdb : dbInv db)
    (hrs : ¬ db.runStatus = RunStatus.FAILED) :
    (initAgent db).current_step_number = (planStepNumbers db).length := by
  obtain ⟨hap, hgap, hfpl, hretry, hfresh, hord⟩ := hdb
  have hall := hfpl hrs
  have hmap : planStepNumbers db = db.steps.map (fun s => s.step_number) := by
    unfold planStepNumbers
    exact planNumsL_all _ hall
  cases hls : latestStep db.steps with
  | none =>
      have hnil : db.steps = [] := latestStep_eq_none _ hls
      unfold initAgent
      rw [hls]
      simp [hmap, hnil]
  | some st =>
      obtain ⟨hmem, hmax⟩ := latestStep_spec _ _ hls
      unfold initAgent
      rw [hls]
      dsimp only
      have h1 : st.step_number ∈ planStepNumbers db := by
        rw [hmap]
        exact List.mem_map.mpr ⟨st, hmem, rfl⟩
      unfold stepNumbersGapless at hgap
      rw [hgap] at h1
      obtain ⟨hge, hlt⟩ := List.mem_range'_1.mp h1
      have hle : st.step_number ≤ (planStepNumbers db).length := by omega
      have hn1 : 1 ≤ (planStepNumbers db).length := by omega
      have h2 : (planStepNumbers db).length ∈
          List.range' 1 (planStepNumbers db).length :=
        List.mem_range'_1.mpr ⟨hn1, by omega⟩
      rw [← hgap, hmap] at h2
      obtain ⟨s2, hs2, hs2n⟩ := List.mem_map.mp h2
      have := hmax s2 hs2
      have hlen := congrArg List.length hmap
      simp only [List.length_map] at hlen
      rw [List.length_map] at hs2n
      omega

/-- Rehydration: the agent built for a run of a sound, non failed store
satisfies the loop invariants. -/
theorem agentInv_initAgent (db : Db) (hdb : dbInv db)
    (hrs : ¬ db.runStatus = RunStatus.FAILED) :
    agentInv (initAgent db) := by
  refine ⟨?_, ?_, fun _ => ?_⟩
  · rw [initAgent_db]
    exact hdb
  · rw [initAgent_db]
    exact Or.inl hrs
  · rw [initAgent_db]
    exact initAgent_ctr db hdb hrs

/-- Helper: forcing Run.status to FAILED preserves the store invariants. -/
theorem dbInv_set_failed (db : Db) (hdb : dbInv db) :
    dbInv { db with runStatus := RunStatus.FAILED } := by
  obtain ⟨⟨hap1, hap2⟩, hgap, hfpl, hretry, hfresh, hord⟩ := hdb
  refine ⟨⟨?_, hap2⟩, hgap, ?_, hretry, hfresh, hord⟩
  · intro h
    cases h
  · intro h
    exact absurd rfl h

/-- Helper: setting Run.status to a status other than FAILED and
NEEDS_APPROVAL (RUNNING or DONE) on a non failed store preserves the
store invariants. -/
theorem dbInv_set_nonfailed (db : Db) (s : RunStatus) (hdb : dbInv db)
    (hrs : ¬ db.runStatus = RunStatus.FAILED)
    (hsf : ¬ s = RunStatus.FAILED) (hsna : ¬ s = RunStatus.NEEDS_APPROVAL) :
    dbInv { db with runStatus := s } := by
  obtain ⟨⟨hap1, hap2⟩, hgap, hfpl, hretry, hfresh, hord⟩ := hdb
  refine ⟨⟨?_, hap2⟩, hgap, ?_, hretry, hfresh, hord⟩
  · intro h
    exact absurd h hsna
  · intro _
    exact hfpl hrs

/-- The FAILED helper never touches the step counter, the ceiling or the
approval handler counter. -/
theorem t2f_frame (a : AgentState) (r : String) :
    (transition_to_failed a r).current_step_number = a.current_step_number ∧
    (transition_to_failed a r).naHandlerCalls = a.naHandlerCalls ∧
    (transition_to_failed a r).max_steps = a.max_steps := by
  unfold transition_to_failed
  split <;> exact ⟨rfl, rfl, rfl⟩

/-- The PLAN handler never touches the step counter, the ceiling or the
approval handler counter. -/
theorem handle_plan_frame (a : AgentState) (e : PlanEvent) :
    ((handle_plan_state a e).agent).naHandlerCalls = a.naHandlerCalls ∧
    ((handle_plan_state a e).agent).current_step_number = a.current_step_number ∧
    ((handle_plan_state a e).agent).max_steps = a.max_steps := by
  unfold handle_plan_state
  cases e <;> dsimp only [Db.alloc] <;> (repeat' split) <;>
    dsimp only [HRes.agent] <;>
    first
      | exact ⟨rfl, rfl, rfl⟩
      | exact ⟨(t2f_frame _ _).2.1, (t2f_frame _ _).1, (t2f_frame _ _).2.2⟩

/-- The EVALUATE handler never touches the step counter, the ceiling or
the approval handler counter. -/
theorem handle_evaluate_frame (a : AgentState) (e : EvalEvent) :
    ((handle_evaluate_state a e).agent).naHandlerCalls = a.naHandlerCalls ∧
    ((handle_evaluate_state a e).agent).current_step_number = a.current_step_number ∧
    ((handle_evaluate_state a e).agent).max_steps = a.max_steps := by
  unfold handle_evaluate_state
  cases e <;> dsimp only [Db.alloc] <;> (repeat' split) <;>
    dsimp only [HRes.agent] <;>
    first
      | exact ⟨rfl, rfl, rfl⟩
      | exact ⟨(t2f_frame _ _).2.1, (t2f_frame _ _).1, (t2f_frame _ _).2.2⟩

/-- The EXECUTE_TOOL handler never touches the step counter, the ceiling
or the approval handler counter. -/
theorem handle_execute_frame (a : AgentState) (script : List Event) :
    ((handle_execute_state a script).agent).naHandlerCalls = a.naHandlerCalls ∧
    ((handle_execute_state a script).agent).current_step_number = a.current_step_number ∧
    ((handle_execute_state a script).agent).max_steps = a.max_steps := by
  refine ⟨?_, ?_, ?_⟩ <;>
    (unfold handle_execute_state
     repeat' first
       | split
       | dsimp only [Db.alloc]) <;>
    dsimp only [StepOutcome.agent] <;>
    first
      | rfl
      | exact (t2f_frame _ _).2.1
      | exact (t2f_frame _ _).1
      | exact (t2f_frame _ _).2.2

/-- The NEEDS_APPROVAL handler never touches the step counter or the
ceiling (it only bumps its own invocation counter). -/
theorem handle_na_frame (a : AgentState) :
    ((handle_needs_approval_state a).agent).current_step_number = a.current_step_number ∧
    ((handle_needs_approval_state a).agent).max_steps = a.max_steps := by
  refine ⟨?_, ?_⟩ <;>
    (unfold handle_needs_approval_state
     repeat' first
       | split
       | dsimp only []) <;>
    dsimp only [HRes.agent] <;>
    first
      | rfl
      | exact (t2f_frame _ _).1
      | exact (t2f_frame _ _).2.2

/-- No state handler ever touches the step counter or the ceiling: only
the loop head moves the counter (and only when entering PLAN). -/
theorem execute_current_frame (a : AgentState) (script : List Event) :
    ((execute_current_state a script).agent).current_step_number = a.current_step_number ∧
    ((execute_current_state a script).agent).max_steps = a.max_steps := by
  unfold execute_current_state
  cases ha : a.sm with
  | PLAN =>
      cases script with
      | nil => exact ⟨rfl, rfl⟩
      | cons ev rest =>
          cases ev with
          | plan e =>
              dsimp only
              have h := handle_plan_frame a e
              cases hr : handle_plan_state a e with
              | ok b =>
                  rw [hr] at h
                  exact ⟨h.2.1, h.2.2⟩
              | exc b msg =>
                  rw [hr] at h
                  exact ⟨h.2.1, h.2.2⟩
          | eval e => exact ⟨rfl, rfl⟩
          | dispatch d => exact ⟨rfl, rfl⟩
  | EXECUTE_TOOL =>
      exact ⟨(handle_execute_frame a script).2.1, (handle_execute_frame a script).2.2⟩
  | EVALUATE =>
      cases script with
      | nil => exact ⟨rfl, rfl⟩
      | cons ev rest =>
          cases ev with
          | plan e => exact ⟨rfl, rfl⟩
          | eval e =>
              dsimp only
              have h := handle_evaluate_frame a e
              cases hr : handle_evaluate_state a e with
              | ok b =>
                  rw [hr] at h
                  exact ⟨h.2.1, h.2.2⟩
              | exc b msg =>
                  rw [hr] at h
                  exact ⟨h.2.1, h.2.2⟩
          | dispatch d => exact ⟨rfl, rfl⟩
  | NEEDS_APPROVAL =>
      dsimp only
      have h := handle_na_frame a
      cases hr : handle_needs_approval_state a with
      | ok b =>
          rw [hr] at h
          exact ⟨h.1, h.2⟩
      | exc b msg =>
          rw [hr] at h
          exact ⟨h.1, h.2⟩
  | DONE => exact ⟨rfl, rfl⟩
  | FAILED => exact ⟨rfl, rfl⟩

/-- Away from the NEEDS_APPROVAL position (where the loop never
dispatches a handler) the dispatched handler leaves the approval handler
invocation counter untouched. -/
theorem execute_current_naCalls (a : AgentState) (script : List Event)
    (hna : ¬ a.sm = State.NEEDS_APPROVAL) :
    ((execute_current_state a script).agent).naHandlerCalls = a.naHandlerCalls := by
  unfold execute_current_state
  cases ha : a.sm with
  | PLAN =>
      cases script with
      | nil => rfl
      | cons ev rest =>
          cases ev with
          | plan e =>
              dsimp only
              have h := handle_plan_frame a e
              cases hr : handle_plan_state a e with
              | ok b =>
                  rw [hr] at h
                  exact h.1
              | exc b msg =>
                  rw [hr] at h
                  exact h.1
          | eval e => rfl
          | dispatch d => rfl
  | EXECUTE_TOOL => exact (handle_execute_frame a script).1
  | EVALUATE =>
      cases script with
      | nil => rfl
      | cons ev rest =>
          cases ev with
          | plan e => rfl
          | eval e =>
              dsimp only
              have h := handle_evaluate_frame a e
              cases hr : handle_evaluate_state a e with
              | ok b =>
                  rw [hr] at h
                  exact h.1
              | exc b msg =>
                  rw [hr] at h
                  exact h.1
          | dispatch d => rfl
  | NEEDS_APPROVAL => exact absurd ha hna
  | DONE => rfl
  | FAILED => rfl

/-- The handler the loop dispatches away from terminal and
NEEDS_APPROVAL positions keeps the store invariants and the status
linkage, and on a normal return keeps the full loop invariants. -/
theorem execute_current_inv (a : AgentState) (script : List Event)
    (hdb : dbInv a.db) (hrs : ¬ a.db.runStatus = RunStatus.FAILED)
    (hc : (a.sm = State.PLAN ∧
            a.current_step_number = (planStepNumbers a.db).length + 1) ∨
          ((a.sm = State.EXECUTE_TOOL ∨ a.sm = State.EVALUATE) ∧
            a.current_step_number = (planStepNumbers a.db).length)) :
    (dbInv ((execute_current_state a script).agent).db ∧
      (¬ ((execute_current_state a script).agent).db.runStatus = RunStatus.FAILED ∨
        ((execute_current_state a script).agent).sm = State.FAILED)) ∧
    ∀ a' s', execute_current_state a script = StepOutcome.ok a' s' → agentInv a' := by
  unfold execute_current_state
  rcases hc with ⟨hsm, hctr⟩ | ⟨hsm2, hctr⟩
  · rw [hsm]
    cases script with
    | nil =>
        exact ⟨⟨hdb, Or.inl hrs⟩, fun a' s' h => by cases h⟩
    | cons ev rest =>
        cases ev with
        | plan e =>
            dsimp only
            have h := agentInv_handle_plan a e hdb hsm hrs hctr
            cases hr : handle_plan_state a e with
            | ok b =>
                rw [hr] at h
                dsimp only [HRes.agent] at h
                refine ⟨⟨h.1, h.2.1⟩, fun a' s' heq => ?_⟩
                cases heq
                exact h
            | exc b msg =>
                rw [hr] at h
                dsimp only [HRes.agent] at h
                exact ⟨⟨h.1, h.2.1⟩, fun a' s' heq => by cases heq⟩
        | eval e =>
            exact ⟨⟨hdb, Or.inl hrs⟩, fun a' s' h => by cases h⟩
        | dispatch d =>
            exact ⟨⟨hdb, Or.inl hrs⟩, fun a' s' h => by cases h⟩
  · rcases hsm2 with hsm | hsm
    · rw [hsm]
      have hx := agentInv_handle_execute a script hdb hsm hrs hctr
      cases hr : handle_execute_state a script with
      | ok b s' =>
          rw [hr] at hx
          dsimp only [StepOutcome.agent] at hx
          refine ⟨⟨hx.1, hx.2.1⟩, fun a' s'' heq => ?_⟩
          cases heq
          exact hx
      | stuck b s' =>
          rw [hr] at hx
          dsimp only [StepOutcome.agent] at hx
          exact ⟨⟨hx.1, hx.2.1⟩, fun a' s'' heq => by cases heq⟩
      | exc b s' msg =>
          rw [hr] at hx
          dsimp only [StepOutcome.agent] at hx
          exact ⟨⟨hx.1, hx.2.1⟩, fun a' s'' heq => by cases heq⟩
    · rw [hsm]
      cases script with
      | nil =>
          exact ⟨⟨hdb, Or.inl hrs⟩, fun a' s' h => by cases h⟩
      | cons ev rest =>
          cases ev with
          | plan e =>
              exact ⟨⟨hdb, Or.inl hrs⟩, fun a' s' h => by cases h⟩
          | eval e =>
              dsimp only
              have hx := agentInv_handle_evaluate a e hdb hsm hrs hctr
              cases hr : handle_evaluate_state a e with
              | ok b =>
                  rw [hr] at hx
                  dsimp only [HRes.agent] at hx
                  refine ⟨⟨hx.1, hx.2.1⟩, fun a' s' heq => ?_⟩
                  cases heq
                  exact hx
              | exc b msg =>
                  rw [hr] at hx
                  dsimp only [HRes.agent] at hx
                  exact ⟨⟨hx.1, hx.2.1⟩, fun a' s' heq => by cases heq⟩
          | dispatch d =>
              exact ⟨⟨hdb, Or.inl hrs⟩, fun a' s' h => by cases h⟩

/-- The run loop preserves the store invariants and the status linkage
from any state satisfying the loop invariants. -/
theorem run_loop_inv (fuel : Nat) : ∀ (a : AgentState) (script : List Event),
    agentInv a →
    dbInv ((run_loop fuel a script).agent).db ∧
    (¬ ((run_loop fuel a script).agent).db.runStatus = RunStatus.FAILED ∨
      ((run_loop fuel a script).agent).sm = State.FAILED) := by
  induction fuel with
  | zero =>
      intro a script h
      exact ⟨h.1, h.2.1⟩
  | succ n ih =>
      intro a script h
      simp only [run_loop]
      by_cases h1 : a.sm.is_terminal = true
      · rw [if_pos h1]
        exact ⟨h.1, h.2.1⟩
      · rw [if_neg h1]
        have h1f : a.sm.is_terminal = false := by
          revert h1
          cases a.sm.is_terminal <;> simp
        have hsmF : ¬ a.sm = State.FAILED := by
          intro hf
          rw [hf] at h1f
          cases h1f
        have hrs : ¬ a.db.runStatus = RunStatus.FAILED := by
          rcases h.2.1 with hx | hx
          · exact hx
          · exact absurd hx hsmF
        have hctr := h.2.2 h1f
        by_cases h2 : a.sm = State.NEEDS_APPROVAL
        · rw [if_pos h2]
          exact ⟨h.1, h.2.1⟩
        · rw [if_neg h2]
          by_cases h3 : a.max_steps ≤ a.current_step_number
          · rw [if_pos h3]
            have := agentInv_transition_to_failed a "Max steps exceeded" h.1 h.2.1
            exact ⟨this.1, this.2.1⟩
          · rw [if_neg h3]
            by_cases h4 : a.sm = State.PLAN
            · rw [if_pos h4]
              have hec := execute_current_inv
                { a with current_step_number := a.current_step_number + 1 } script
                h.1 hrs (Or.inl ⟨h4, by rw [hctr]⟩)
              cases hr : execute_current_state
                  { a with current_step_number := a.current_step_number + 1 } script with
              | ok b s' =>
                  exact ih b s' (hec.2 b s' hr)
              | stuck b s' =>
                  have := hec.1
                  rw [hr] at this
                  exact this
              | exc b s' msg =>
                  have := hec.1
                  rw [hr] at this
                  exact this
            · rw [if_neg h4]
              have hsm2 : a.sm = State.EXECUTE_TOOL ∨ a.sm = State.EVALUATE := by
                cases ha : a.sm
                · exact absurd ha h4
                · exact Or.inl rfl
                · exact Or.inr rfl
                · exact absurd ha h2
                · rw [ha] at h1f
                  cases h1f
                · rw [ha] at h1f
                  cases h1f
              have hec := execute_current_inv a script h.1 hrs (Or.inr ⟨hsm2, hctr⟩)
              cases hr : execute_current_state a script with
              | ok b s' =>
                  exact ih b s' (hec.2 b s' hr)
              | stuck b s' =>
                  have := hec.1
                  rw [hr] at this
                  exact this
              | exc b s' msg =>
                  have := hec.1
                  rw [hr] at this
                  exact this

/-- The run loop never invokes the NEEDS_APPROVAL handler (it stops at
the loop head instead) and never moves the safety ceiling: the approval
handler invocation counter and max_steps come out untouched. -/
theorem run_loop_naCalls (fuel : Nat) : ∀ (a : AgentState) (script : List Event),
    ((run_loop fuel a script).agent).naHandlerCalls = a.naHandlerCalls ∧
    ((run_loop fuel a script).agent).max_steps = a.max_steps := by
  induction fuel with
  | zero =>
      intro a script
      exact ⟨rfl, rfl⟩
  | succ n ih =>
      intro a script
      simp only [run_loop]
      by_cases h1 : a.sm.is_terminal = true
      · rw [if_pos h1]
        exact ⟨rfl, rfl⟩
      · rw [if_neg h1]
        by_cases h2 : a.sm = State.NEEDS_APPROVAL
        · rw [if_pos h2]
          exact ⟨rfl, rfl⟩
        · rw [if_neg h2]
          by_cases h3 : a.max_steps ≤ a.current_step_number
          · rw [if_pos h3]
            exact ⟨(t2f_frame _ _).2.1, (t2f_frame _ _).2.2⟩
          · rw [if_neg h3]
            by_cases h4 : a.sm = State.PLAN
            · rw [if_pos h4]
              have hna := execute_current_naCalls
                { a with current_step_number := a.current_step_number + 1 } script h2
              have hfr := execute_current_frame
                { a with current_step_number := a.current_step_number + 1 } script
              cases hr : execute_current_state
                  { a with current_step_number := a.current_step_number + 1 } script with
              | ok b s' =>
                  rw [hr] at hna hfr
                  exact ⟨(ih b s').1.trans hna, (ih b s').2.trans hfr.2⟩
              | stuck b s' =>
                  rw [hr] at hna hfr
                  exact ⟨hna, hfr.2⟩
              | exc b s' msg =>
                  rw [hr] at hna hfr
                  exact ⟨hna, hfr.2⟩
            · rw [if_neg h4]
              have hna := execute_current_naCalls a script h2
              have hfr := execute_current_frame a script
              cases hr : execute_current_state a script with
              | ok b s' =>
                  rw [hr] at hna hfr
                  exact ⟨(ih b s').1.trans hna, (ih b s').2.trans hfr.2⟩
              | stuck b s' =>
                  rw [hr] at hna hfr
                  exact ⟨hna, hfr.2⟩
              | exc b s' msg =>
                  rw [hr] at hna hfr
                  exact ⟨hna, hfr.2⟩

/-- run_agent leaves a store satisfying the invariants behind, whichever
way it returns. -/
theorem run_agent_inv (fuel : Nat) (a : AgentState) (script : List Event)
    (h : agentInv a) : dbInv ((run_agent fuel a script).agent).db := by
  unfold run_agent
  obtain ⟨hdb, hlink⟩ := run_loop_inv fuel a script h
  cases hr : run_loop fuel a script with
  | ok b s =>
      rw [hr] at hdb hlink
      dsimp only [StepOutcome.agent] at hdb hlink
      dsimp only
      by_cases hD : b.sm = State.DONE
      · rw [if_pos hD]
        dsimp only [RunResult.agent]
        have hrsb : ¬ b.db.runStatus = RunStatus.FAILED := by
          rcases hlink with hx | hx
          · exact hx
          · rw [hD] at hx
            cases hx
        exact dbInv_set_nonfailed b.db RunStatus.DONE hdb hrsb
          (by intro hx; cases hx) (by intro hx; cases hx)
      · rw [if_neg hD]
        by_cases hF : b.sm = State.FAILED
        · rw [if_pos hF]
          dsimp only [RunResult.agent]
          exact dbInv_set_failed b.db hdb
        · rw [if_neg hF]
          dsimp only [RunResult.agent]
          exact hdb
  | stuck b s =>
      rw [hr] at hdb
      dsimp only [StepOutcome.agent] at hdb
      exact hdb
  | exc b s msg =>
      rw [hr] at hdb hlink
      dsimp only [StepOutcome.agent] at hdb hlink
      exact (agentInv_transition_to_failed b _ hdb hlink).1

/-- The execute endpoint preserves the store invariants. -/
theorem execute_run_inv (fuel : Nat) (db : Db) (script : List Event)
    (hdb : dbInv db) : dbInv (execute_run fuel db script).1 := by
  unfold execute_run
  by_cases h1 : db.runStatus = RunStatus.DONE
  · rw [if_pos h1]
    exact hdb
  · rw [if_neg h1]
    by_cases h2 : db.runStatus = RunStatus.FAILED
    · rw [if_pos h2]
      exact hdb
    · rw [if_neg h2]
      dsimp only
      have hdb2 : dbInv { db with runStatus := RunStatus.RUNNING } :=
        dbInv_set_nonfailed db RunStatus.RUNNING hdb h2
          (by intro hx; cases hx) (by intro hx; cases hx)
      have hinv := agentInv_initAgent { db with runStatus := RunStatus.RUNNING }
        hdb2 (by intro hx; cases hx)
      have hra := run_agent_inv fuel
        (initAgent { db with runStatus := RunStatus.RUNNING }) script hinv
      cases hr : run_agent fuel
          (initAgent { db with runStatus := RunStatus.RUNNING }) script with
      | finished b =>
          rw [hr] at hra
          exact hra
      | stuck b =>
          rw [hr] at hra
          exact hra
      | raised b msg =>
          rw [hr] at hra
          exact dbInv_set_failed b.db hra

/-- Recording the approved direct tool execution preserves the store
invariants, sets the Run RUNNING and resumes at EVALUATE. -/
theorem approve_resume_inv (db : Db) (ptc : ToolCallRec) (out : String)
    (hdb : dbInv db) (hna : db.runStatus = RunStatus.NEEDS_APPROVAL)
    (hmem : ptc ∈ db.tool_calls) :
    dbInv (approve_resume_start db ptc out).1 ∧
    (approve_resume_start db ptc out).1.runStatus = RunStatus.RUNNING := by
  obtain ⟨⟨hap1, hap2⟩, hgap, hfpl, hretry, ⟨hf1, hf2, hf3, hf4, hf5, hf6⟩, hord⟩ := hdb
  have hdbfull : dbInv db :=
    ⟨⟨hap1, hap2⟩, hgap, hfpl, hretry, ⟨hf1, hf2, hf3, hf4, hf5, hf6⟩, hord⟩
  obtain ⟨hupd, hplan⟩ := dbInv_update_tc db ptc.id
    { ptc with
      outputs := some out,
      status := ToolCallStatus.SUCCESS, executed_at := some db.nextId }
    hdbfull (hf2 ptc hmem) rfl
    (fun _ _ => hap1 hna)
    ⟨fun hor => by rcases hor with hx | hx <;> simp at hx,
     (hretry ptc hmem).2⟩
  obtain ⟨hbump, hplanb⟩ := dbInv_bump_nextId _ hupd
  have hrs2 : ¬ ({ db with
      tool_calls := updateToolCallRow db.tool_calls ptc.id
        { ptc with
          outputs := some out,
          status := ToolCallStatus.SUCCESS, executed_at := some db.nextId },
      nextId := db.nextId + 1 } : Db).runStatus = RunStatus.FAILED := by
    intro hx
    rw [hna] at hx
    cases hx
  exact ⟨dbInv_set_nonfailed _ RunStatus.RUNNING hbump hrs2
    (by intro hx; cases hx) (by intro hx; cases hx), rfl⟩

/-- Appending the synthetic terminal Step of a rejection to a FAILED
store preserves the store invariants. -/
theorem dbInv_append_terminal_step (db : Db) (st : StepRec)
    (hdb : dbInv db) (hfs : db.runStatus = RunStatus.FAILED)
    (hid : st.id = db.nextId) (hca : st.created_at = st.id)
    (hfp : st.fromPlan = false) :
    dbInv { db with nextId := db.nextId + 1, steps := db.steps ++ [st] } := by
  obtain ⟨⟨hap1, hap2⟩, hgap, hfpl, hretry, ⟨hf1, hf2, hf3, hf4, hf5, hf6⟩, hord⟩ := hdb
  refine ⟨⟨?_, hap2⟩, ?_, ?_, hretry, ⟨?_, ?_, ?_, ?_, ?_, hf6⟩,
    stepsOrd_append _ _ _ hord hf1 hid hca⟩
  · intro hx
    rw [hfs] at hx
    cases hx
  · unfold stepNumbersGapless planStepNumbers at hgap ⊢
    simp only
    rw [planNumsL_append_nonplan _ _ hfp]
    exact hgap
  · intro hx
    rw [hfs] at hx
    exact absurd rfl hx
  · intro s hs
    rcases List.mem_append.mp hs with h1 | h1
    · exact Nat.lt_trans (hf1 s h1) (Nat.lt_succ_self _)
    · simp at h1
      rw [h1, hid]
      simp
  · exact fun tc htc => Nat.lt_trans (hf2 tc htc) (Nat.lt_succ_self _)
  · exact fun p hp => Nat.lt_trans (hf3 p hp) (Nat.lt_succ_self _)
  · exact fun p hp => Nat.lt_trans (hf4 p hp) (Nat.lt_succ_self _)
  · rw [List.map_append]
    refine List.Nodup.append hf5 (by simp) ?_
    intro x hx1 hx2
    simp at hx1 hx2
    obtain ⟨s2, hs2, hid2⟩ := hx1
    have := hf1 s2 hs2
    rw [hx2, hid] at hid2
    omega

/-- The approval endpoint preserves the store invariants. -/
theorem approve_run_inv (db : Db) (approved : Bool) (reason : String)
    (toolResult : Except String String) (fuel : Nat) (script : List Event)
    (hdb : dbInv db) :
    dbInv (approve_run db approved reason toolResult fuel script).1 := by
  unfold approve_run
  by_cases h1 : ¬ (db.runStatus = RunStatus.NEEDS_APPROVAL)
  · rw [if_pos h1]
    exact hdb
  · rw [if_neg h1]
    have hna : db.runStatus = RunStatus.NEEDS_APPROVAL := not_not.mp h1
    dsimp only
    by_cases happ : approved = true
    · rw [if_pos happ]
      cases hptc : latestPendingToolCall db with
      | none => exact hdb
      | some ptc =>
          dsimp only
          by_cases hreq : ¬ requires_approval ptc.tool_name
          · rw [if_pos hreq]
            exact hdb
          · rw [if_neg hreq]
            cases toolResult with
            | error e => exact dbInv_set_failed db hdb
            | ok out =>
                dsimp only
                have hmem : ptc ∈ db.tool_calls := by
                  have hm := latestByCreated_mem _ _ hptc
                  exact (List.mem_filter.mp hm).1
                obtain ⟨hdb2, hrun2⟩ := approve_resume_inv db ptc out hdb hna hmem
                have hinv : agentInv (approve_resume_start db ptc out).2 := by
                  show agentInv
                    { initAgent (approve_resume_start db ptc out).1 with
                      sm := State.EVALUATE }
                  have hrs2 : ¬ (approve_resume_start db ptc out).1.runStatus =
                      RunStatus.FAILED := by
                    rw [hrun2]
                    intro hx
                    cases hx
                  refine ⟨?_, ?_, fun _ => ?_⟩
                  · rw [show ({ initAgent (approve_resume_start db ptc out).1 with
                        sm := State.EVALUATE } : AgentState).db =
                        (initAgent (approve_resume_start db ptc out).1).db from rfl]
                    rw [initAgent_db]
                    exact hdb2
                  · rw [show ({ initAgent (approve_resume_start db ptc out).1 with
                        sm := State.EVALUATE } : AgentState).db =
                        (initAgent (approve_resume_start db ptc out).1).db from rfl]
                    rw [initAgent_db]
                    exact Or.inl hrs2
                  · show (initAgent (approve_resume_start db ptc out).1).current_step_number =
                      (planStepNumbers
                        (initAgent (approve_resume_start db ptc out).1).db).length
                    rw [initAgent_db]
                    exact initAgent_ctr _ hdb2 hrs2
                have hra := run_agent_inv fuel _ script hinv
                cases hr : run_agent fuel (approve_resume_start db ptc out).2
                    script with
                | finished b =>
                    rw [hr] at hra
                    dsimp only [RunResult.agent] at hra
                    exact hra
                | stuck b =>
                    rw [hr] at hra
                    dsimp only [RunResult.agent] at hra
                    exact hra
                | raised b msg =>
                    rw [hr] at hra
                    dsimp only [RunResult.agent] at hra
                    exact hra
    · rw [if_neg happ]
      dsimp only
      exact dbInv_append_terminal_step _ _ (dbInv_set_failed db hdb) rfl rfl rfl rfl

/-- One service interaction preserves the store invariants. -/
theorem sys_step_inv (db : Db) (e : SysEvent) (hdb : dbInv db) :
    dbInv (sys_step db e) := by
  cases e with
  | execute fuel script => exact execute_run_inv fuel db script hdb
  | approve approved reason toolResult fuel script =>
      exact approve_run_inv db approved reason toolResult fuel script hdb

/-- A whole service history preserves the store invariants. -/
theorem sys_run_inv (es : List SysEvent) : ∀ db : Db, dbInv db →
    dbInv (sys_run db es) := by
  induction es with
  | nil =>
      intro db hdb
      exact hdb
  | cons e rest ih =>
      intro db hdb
      exact ih _ (sys_step_inv db e hdb)

/-- A freshly created Run's store satisfies the invariants. -/
theorem create_run_inv (g : String) : dbInv (create_run g) := by
  refine ⟨⟨?_, ?_⟩, rfl, ?_, ?_, ⟨?_, ?_, ?_, ?_, ?_, ?_⟩, ?_, ?_⟩
  · intro hx
    cases hx
  · intro tc htc
    cases htc
  · intro _ st hst
    cases hst
  · intro tc htc
    cases htc
  · intro st hst
    cases hst
  · intro tc htc
    cases htc
  · intro p hp
    cases hp
  · intro p hp
    cases hp
  · exact List.nodup_nil
  · exact List.nodup_nil
  · intro st hst
    cases hst
  · exact List.Pairwise.nil

/-- Claim C2: for every run and every tool whose registry entry has
requires_approval true, a ToolCall for that tool never reaches SUCCESS
unless the Run has first passed through NEEDS_APPROVAL (first conjunct,
over every service history from a fresh run: this safety half holds).
The claimed pre-dispatch gate behaviour however is broken in the code:
the gate calls transition(NEEDS_APPROVAL) from EXECUTE_TOOL, which the
transition table forbids, so instead of pausing the run it raises
InvalidTransition and the run crashes to FAILED: on the create_ticket
scenario the run ends FAILED (not paused at NEEDS_APPROVAL), the gated
ToolCall stays PENDING unexecuted, and the endpoint answers 500
(remaining conjuncts). -/
theorem C2_approval_gate (g : String) (es : List SysEvent) :
    approvalInv (sys_run (create_run g) es) ∧
    (execute_run 10 (create_run "g") ticketScript).1.runStatus =
      RunStatus.FAILED ∧
    (execute_run 10 (create_run "g") ticketScript).1.tool_calls.map
      (fun t => (t.tool_name, t.status)) =
      [("create_ticket", ToolCallStatus.PENDING)] ∧
    (execute_run 10 (create_run "g") ticketScript).2 =
      ApiOutcome.httpError 500 "Execution failed" :=
  ⟨(sys_run_inv es (create_run g) (create_run_inv g)).1, rfl, rfl, rfl⟩

/-- Counterexample to claim C3 as stated: in the retry exhaustion
scenario one ToolCall records three failed attempts and is nonetheless
dispatched a fourth time (the dispatch counter of the call reaches 4):
the initial attempt plus 3 retries make 4 dispatches, so after 3
consecutive failures a 4th attempt IS made. -/
theorem C3_counterexample :
    kvLookup (execute_run 10 (create_run "g") retryScript).1.dispatchCounts 2 =
      some 4 ∧
    (execute_run 10 (create_run "g") retryScript).1.retry = [(2, 3)] :=
  ⟨rfl, rfl⟩

/-- Claim C3, amended: for every ToolCall of every service history a 5th
dispatch attempt is never made (at most 4 = initial + 3 retries), and
when the 4 attempts all fail the ToolCall is marked permanently FAILED
and the Run ends FAILED (concrete retry exhaustion scenario). -/
theorem C3_retry_cap :
    (∀ (g : String) (es : List SysEvent) tc,
      tc ∈ (sys_run (create_run g) es).tool_calls →
      (kvLookup (sys_run (create_run g) es).dispatchCounts tc.id).getD 0 ≤ 4) ∧
    (execute_run 10 (create_run "g") retryScript).1.runStatus =
      RunStatus.FAILED ∧
    (execute_run 10 (create_run "g") retryScript).1.tool_calls.map
      (fun t => t.status) = [ToolCallStatus.FAILED] ∧
    kvLookup (execute_run 10 (create_run "g") retryScript).1.dispatchCounts 2 =
      some 4 :=
  ⟨fun g es tc htc =>
    ((sys_run_inv es (create_run g) (create_run_inv g)).2.2.2.1 tc htc).2,
   rfl, rfl, rfl⟩

/-- Witness for the amended C3 cap at a concrete history and ToolCall. -/
theorem C3_retry_cap_witness :
    (kvLookup (sys_run (create_run "g")
        [SysEvent.execute 10 retryScript]).dispatchCounts exhaustedTc.id).getD 0
      ≤ 4 :=
  C3_retry_cap.1 "g" [SysEvent.execute 10 retryScript] exhaustedTc (by decide)

/-- Claim C4: the code is meant to persist Run.status = NEEDS_APPROVAL
when the loop stops at NEEDS_APPROVAL reached mid loop, but the handler
that would do so is dead code: the loop breaks at its head on seeing
NEEDS_APPROVAL before any handler dispatch, so the handler is never
invoked (first conjunct: the loop leaves the handler invocation counter
untouched on every input), and on the needs_approval evaluation scenario
the loop stops with the machine at NEEDS_APPROVAL while the persisted
Run.status stays RUNNING, also through the execute endpoint. -/
theorem C4_na_handler_dead :
    (∀ (fuel : Nat) (a : AgentState) (script : List Event),
      ((run_loop fuel a script).agent).naHandlerCalls = a.naHandlerCalls) ∧
    ((run_loop 10 (initAgent (create_run "g")) naScript).agent).sm =
      State.NEEDS_APPROVAL ∧
    ((run_loop 10 (initAgent (create_run "g")) naScript).agent).db.runStatus =
      RunStatus.RUNNING ∧
    ((run_loop 10 (initAgent (create_run "g")) naScript).agent).naHandlerCalls =
      0 ∧
    (execute_run 10 (create_run "g") naScript).1.runStatus =
      RunStatus.RUNNING :=
  ⟨fun fuel a script => (run_loop_naCalls fuel a script).1, rfl, rfl, rfl, rfl⟩

/-- Claim C5: in EXECUTE_TOOL with a pending non gated ToolCall carrying
k recorded attempts, the handler sleeps 2^(k-1) time units before the
dispatch (nothing when k = 0), and a successful dispatch persists the
outputs on the same row as SUCCESS with executed_at stamped, clears the
retry counter key and moves the machine to EVALUATE (first conjunct);
the fail-fail-succeed scenario ends with the Run DONE, the ToolCall
SUCCESS, the retry store empty and 1 + 2 = 3 time units of backoff slept
(remaining conjuncts). -/
theorem C5_backoff_and_success :
    (∀ (a : AgentState) (current_step : StepRec) (tc0 : ToolCallRec)
        (out : String) (rest : List Event),
      a.db.steps.find? (isCurrentStep a.current_step_number) = some current_step →
      a.db.tool_calls.find? (isPendingOf current_step.id) = some tc0 →
      requires_approval tc0.tool_name = false →
      a.sm = State.EXECUTE_TOOL →
      ((handle_execute_state a
          (Event.dispatch (DispatchOutcome.success out) :: rest)).agent).sleptTotal =
        a.sleptTotal +
          (if 0 < (kvLookup a.db.retry tc0.id).getD 0 then
            2 ^ ((kvLookup a.db.retry tc0.id).getD 0 - 1) else 0) ∧
      ((handle_execute_state a
          (Event.dispatch (DispatchOutcome.success out) :: rest)).agent).sm =
        State.EVALUATE ∧
      kvLookup ((handle_execute_state a
          (Event.dispatch (DispatchOutcome.success out) :: rest)).agent).db.retry
        tc0.id = none ∧
      { tc0 with
        outputs := some out,
        status := ToolCallStatus.SUCCESS, executed_at := some a.db.nextId } ∈
        ((handle_execute_state a
          (Event.dispatch (DispatchOutcome.success out) :: rest)).agent).db.tool_calls) ∧
    ((run_agent 10 (initAgent (create_run "g")) backoffScript).agent).db.runStatus =
      RunStatus.DONE ∧
    ((run_agent 10 (initAgent (create_run "g")) backoffScript).agent).sleptTotal =
      1 + 2 ∧
    ((run_agent 10 (initAgent (create_run "g")) backoffScript).agent).db.retry =
      [] ∧
    ((run_agent 10 (initAgent (create_run "g")) backoffScript).agent).db.tool_calls.map
      (fun t => t.status) = [ToolCallStatus.SUCCESS] := by
  refine ⟨?_, rfl, rfl, rfl, rfl⟩
  intro a current_step tc0 out rest hfs hft hgate hsm
  have hmemt := List.mem_of_find?_eq_some hft
  unfold handle_execute_state
  rw [hfs]
  dsimp only
  rw [hft]
  dsimp only
  rw [if_neg (by rw [hgate]; intro h; cases h)]
  dsimp only [Db.alloc]
  rw [if_neg (by rw [hgate]; intro h; cases h), hsm]
  rw [show State.transitionTo State.EXECUTE_TOOL State.EVALUATE =
    Except.ok State.EVALUATE from rfl]
  dsimp only [StepOutcome.agent]
  refine ⟨rfl, rfl, kvLookup_kvDelete_self _ _, ?_⟩
  refine updateToolCallRow_mem_self _ tc0.id _
    { tc0 with status := ToolCallStatus.RUNNING } ?_ rfl
  exact updateToolCallRow_mem_self _ tc0.id _ tc0 hmemt rfl

/-- Witness for C5 at a mid run state with two recorded attempts: the
handler sleeps another 2^(2-1) = 2 units on top of the 3 already slept. -/
theorem C5_backoff_and_success_witness :
    ((handle_execute_state midAgent
        [Event.dispatch (DispatchOutcome.success "12 hits")]).agent).sleptTotal =
      5 ∧
    ((handle_execute_state midAgent
        [Event.dispatch (DispatchOutcome.success "12 hits")]).agent).sm =
      State.EVALUATE :=
  ⟨(C5_backoff_and_success.1 midAgent
      { id := 1, run_id := 1, state := State.EXECUTE_TOOL, step_number := 1,
        reasoning := some "look for errors", created_at := 1, fromPlan := true }
      { id := 2, step_id := 1, tool_name := "search_logs", inputs := slInputs,
        outputs := none, status := ToolCallStatus.PENDING,
        error_message := none, created_at := 2, executed_at := none }
      "12 hits" [] (by decide) (by decide) rfl rfl).1,
   (C5_backoff_and_success.1 midAgent
      { id := 1, run_id := 1, state := State.EXECUTE_TOOL, step_number := 1,
        reasoning := some "look for errors", created_at := 1, fromPlan := true }
      { id := 2, step_id := 1, tool_name := "search_logs", inputs := slInputs,
        outputs := none, status := ToolCallStatus.PENDING,
        error_message := none, created_at := 2, executed_at := none }
      "12 hits" [] (by decide) (by decide) rfl rfl).2.1⟩

/-- Counterexample to claim C6 as stated: on rejection the appended
terminal Step does NOT record the rejection reason: its reasoning field
is empty and the reason only travels back in the HTTP response text. -/
theorem C6_counterexample :
    ((approve_run pausedDb false "too risky" (Except.ok "t") 10
        []).1.steps.getLast?).map (fun s => (s.state, s.reasoning)) =
      some (State.FAILED, none) ∧
    (approve_run pausedDb false "too risky" (Except.ok "t") 10 []).2 =
      ApiOutcome.ok "rejected:too risky" :=
  ⟨rfl, rfl⟩

/-- Claim C6, amended: on approval the pending gated tool is executed
directly, the outcome is recorded on the same ToolCall row (outputs,
SUCCESS, executed_at) and the loop restarts at EVALUATE (first conjunct
and the concrete approved scenario); on rejection the Run is forced
FAILED and a terminal Step is appended, but the rejection reason is only
returned in the response, not stored on the Step (second conjunct). -/
theorem C6_resume_after_approval :
    (∀ (db : Db) (ptc : ToolCallRec) (out : String),
      ptc ∈ db.tool_calls →
      (approve_resume_start db ptc out).2.sm = State.EVALUATE ∧
      (approve_resume_start db ptc out).1.runStatus = RunStatus.RUNNING ∧
      { ptc with
        outputs := some out,
        status := ToolCallStatus.SUCCESS, executed_at := some db.nextId } ∈
        (approve_resume_start db ptc out).1.tool_calls) ∧
    (∀ (db : Db) (reason : String) (tr : Except String String) (fuel : Nat)
        (script : List Event),
      db.runStatus = RunStatus.NEEDS_APPROVAL →
      (approve_run db false reason tr fuel script).1.runStatus =
        RunStatus.FAILED ∧
      (approve_run db false reason tr fuel script).2 =
        ApiOutcome.ok ("rejected:" ++ reason) ∧
      ((approve_run db false reason tr fuel script).1.steps.getLast?).map
        (fun s => (s.state, s.reasoning)) = some (State.FAILED, none)) ∧
    (approve_run pausedDb true "go ahead" (Except.ok "ticket-9") 10
      [Event.eval (.result "done" none)]).1.runStatus = RunStatus.DONE ∧
    (approve_run pausedDb true "go ahead" (Except.ok "ticket-9") 10
      [Event.eval (.result "done" none)]).1.tool_calls.map
      (fun t => (t.tool_name, t.status, t.outputs, t.executed_at)) =
      [("create_ticket", ToolCallStatus.SUCCESS, some "ticket-9", some 3)] ∧
    (approve_run pausedDb true "go ahead" (Except.ok "ticket-9") 10
      [Event.eval (.result "done" none)]).2 = ApiOutcome.ok "approved" := by
  refine ⟨?_, ?_, rfl, rfl, rfl⟩
  · intro db ptc out hmem
    refine ⟨rfl, rfl, ?_⟩
    exact updateToolCallRow_mem_self _ ptc.id _ ptc hmem rfl
  · intro db reason tr fuel script hna
    unfold approve_run
    rw [if_neg (not_not_intro hna)]
    dsimp only
    rw [if_neg Bool.false_ne_true]
    dsimp only [Db.alloc]
    refine ⟨rfl, rfl, ?_⟩
    rw [List.getLast?_concat]
    rfl

/-- Witness for C6 at the paused store: rejecting there fails the Run,
answers with the reason and appends a reason-less terminal Step. -/
theorem C6_resume_after_approval_witness :
    (approve_run pausedDb false "no" (Except.error "x") 3 []).1.runStatus =
      RunStatus.FAILED ∧
    (approve_run pausedDb false "no" (Except.error "x") 3 []).2 =
      ApiOutcome.ok ("rejected:" ++ "no") ∧
    ((approve_run pausedDb false "no" (Except.error "x") 3
        []).1.steps.getLast?).map (fun s => (s.state, s.reasoning)) =
      some (State.FAILED, none) :=
  C6_resume_after_approval.2.1 pausedDb "no" (Except.error "x") 3 [] rfl

/-- Claim C7: over every service history from a fresh run the persisted
PLAN entry Steps are numbered 1, 2, 3, ... strictly increasing and
gapless (first conjunct); no handler ever moves the step counter, only
the loop head does and only when entering PLAN (second conjunct); and
resume rehydrates the counter from the latest persisted Step: on a
sound non failed store the rehydrated counter equals the number of PLAN
entries, and it is literally the latest Step's step_number (remaining
conjuncts). -/
theorem C7_step_numbering :
    (∀ (g : String) (es : List SysEvent),
      stepNumbersGapless (sys_run (create_run g) es)) ∧
    (∀ (a : AgentState) (script : List Event),
      ((execute_current_state a script).agent).current_step_number =
        a.current_step_number) ∧
    (∀ db : Db, dbInv db → ¬ db.runStatus = RunStatus.FAILED →
      (initAgent db).current_step_number = (planStepNumbers db).length) ∧
    (∀ (db : Db) (st : StepRec), latestStep db.steps = some st →
      (initAgent db).current_step_number = st.step_number) := by
  refine ⟨fun g es => (sys_run_inv es (create_run g) (create_run_inv g)).2.1,
    fun a script => (execute_current_frame a script).1,
    fun db hdb hrs => initAgent_ctr db hdb hrs,
    fun db st h => ?_⟩
  unfold initAgent
  rw [h]

/-- Witness for C7 at the paused store: its rehydrated counter is the
number of persisted PLAN entries (one). -/
theorem C7_step_numbering_witness :
    (initAgent pausedDb).current_step_number =
      (planStepNumbers pausedDb).length :=
  C7_step_numbering.2.2.1 pausedDb
    (by
      unfold dbInv approvalInv stepNumbersGapless stepsFromPlan retryInv
        tcRetryOk idsFresh stepsOrd planStepNumbers planNumsL
      decide)
    (by decide)

end OpsPilot
